import Mathlib

/-!
# MAX17320 battery-management driver (`bms.c`, `bms.h`)

A shallow embedding of the driver.  The driver talks to the device only through
three link-time replaceable collaborators (`bms_reg_write`, `bms_reg_read`,
`bms_delay`); they are modelled as functions on an arbitrary device state `σ`.
Every collaborator call is recorded in a trace so that statements such as
"no further register read is performed" can be expressed.

Machine integers are natural numbers reduced explicitly (`u8`, `u16`), the
signed 16-bit reinterpretation is `i16`, and a `float` or `double` value is the
rational it denotes, every operation rounding as IEEE 754 prescribes.  `bms_log` has no effect on control flow or results (it is
compiled out without `BMS_DEBUG`) and is not modelled.
-/

namespace Bms

/-! ## Constants of `bms.h` -/

def BMS_REG_STATUS : Nat := 0x0000
def BMS_REG_PROTSTATUS : Nat := 0x00D9
def BMS_REG_PROTALRT : Nat := 0x00AF
def BMS_REG_NBATTSTATUS : Nat := 0x01A8
def BMS_REG_VBAT : Nat := 0x00DA
def BMS_REG_CBAT : Nat := 0x001C
def BMS_REG_COMMSTAT : Nat := 0x0061
def BMS_REG_CMDREG : Nat := 0x0060
def BMS_REG_CNFG2 : Nat := 0x00AB
def BMS_REG_REPCAP : Nat := 0x0005
def BMS_REG_FULLCAP : Nat := 0x0035

def BMS_BIT_PERMFAIL : Nat := 0x8000
def BMS_BIT_PROTALRT : Nat := 0x8000

def BMS_BIT_CHGWDT : Nat := 0x8000
def BMS_BIT_TOOHOTC : Nat := 0x4000
def BMS_BIT_FULL : Nat := 0x2000
def BMS_BIT_TOOCOLDC : Nat := 0x1000
def BMS_BIT_OVP : Nat := 0x0800
def BMS_BIT_OCCP : Nat := 0x0400
def BMS_BIT_QOVFLW : Nat := 0x0200
def BMS_BIT_PREQF : Nat := 0x0100
def BMS_BIT_IMBALANCE : Nat := 0x0080
def BMS_BIT_PMFAIL : Nat := 0x0040
def BMS_BIT_DIEHOT : Nat := 0x0020
def BMS_BIT_TOOHOTD : Nat := 0x0010
def BMS_BIT_UVP : Nat := 0x0008
def BMS_BIT_ODCP : Nat := 0x0004
def BMS_BIT_RESDFAULT : Nat := 0x0002
def BMS_BIT_LDET : Nat := 0x0001

/-- The enumeration `bms_error_t` of `bms.h`, in declaration order. -/
inductive bms_error_t where
  | BMS_OK
  | BMS_RESET_ERROR
  | BMS_I2C_MEM_WRITE_ERROR
  | BMS_I2C_MEM_READ_ERROR
  | BMS_CANNOT_REC_ERROR
  | BMS_PERM_FAIL_ERROR
  | BMS_PERM_FAIL_RESET_ERROR
  deriving DecidableEq

open bms_error_t

/-- The integer value of an enumerator (C numbers them 0, 1, 2, ... in order). -/
def bms_error_t.val : bms_error_t → Nat
  | BMS_OK => 0
  | BMS_RESET_ERROR => 1
  | BMS_I2C_MEM_WRITE_ERROR => 2
  | BMS_I2C_MEM_READ_ERROR => 3
  | BMS_CANNOT_REC_ERROR => 4
  | BMS_PERM_FAIL_ERROR => 5
  | BMS_PERM_FAIL_RESET_ERROR => 6

/-- Conversion of an integer back to `bms_error_t`, as done by `return status;`
with `uint8_t status`.  Only the values 0..6 name an enumerator; the driver never
converts any other value (see `of_val_u8_val`), the last branch only makes the
function total. -/
def bms_error_t.of_val : Nat → bms_error_t
  | 0 => BMS_OK
  | 1 => BMS_RESET_ERROR
  | 2 => BMS_I2C_MEM_WRITE_ERROR
  | 3 => BMS_I2C_MEM_READ_ERROR
  | 4 => BMS_CANNOT_REC_ERROR
  | 5 => BMS_PERM_FAIL_ERROR
  | _ => BMS_PERM_FAIL_RESET_ERROR

/-- Modelled from the spec: `bms_bat_okay` returns the identifier `BMS_CANNOT_REC`,
which `bms.h` does not declare; the spec's `Unrecoverable` outcome is the
enumerator `BMS_CANNOT_REC_ERROR`. -/
def BMS_CANNOT_REC : bms_error_t := BMS_CANNOT_REC_ERROR

/-! ## Machine integers -/

/-- Truncation to `uint8_t`. -/
def u8 (n : Nat) : Nat := n % 2 ^ 8

/-- Truncation to `uint16_t`. -/
def u16 (n : Nat) : Nat := n % 2 ^ 16

/-- The two bytes of a 16-bit object read as `int16_t` (two's complement). -/
def i16 (n : Nat) : Int :=
  if n % 2 ^ 16 < 2 ^ 15 then (n % 2 ^ 16 : Nat) else ((n % 2 ^ 16 : Nat) : Int) - 2 ^ 16

/-! ## Collaborators and the call trace -/

/-- One call to a collaborator (or to `bms_full_reset`), with its arguments. -/
inductive Event where
  | reg_write (reg value len : Nat)
  | reg_read (reg len : Nat)
  | delay (msecs : Nat)
  | full_reset
  deriving DecidableEq

/-- Whether an event is a call of `bms_reg_read`. -/
def Event.is_reg_read : Event → Bool
  | Event.reg_read _ _ => true
  | _ => false

/-- The replaceable (`__weak`) collaborators, as functions on a device state `σ`.
`bms_reg_write reg value len` transmits the 16-bit object `value` and leaves the
caller's buffer as it is;
`bms_reg_read reg buf len` receives the prior content `buf` of the caller's
2-byte buffer and returns its content after the call. -/
structure Collab (σ : Type) where
  bms_delay : Nat → σ → σ
  bms_reg_write : Nat → Nat → Nat → σ → bms_error_t × σ
  bms_reg_read : Nat → Nat → Nat → σ → bms_error_t × Nat × σ

/-- Device state together with the trace of collaborator calls made so far. -/
structure World (σ : Type) where
  dev : σ
  trace : List Event
  deriving DecidableEq

variable {σ : Type}

/-- The `__weak` defaults of `bms.c`: the delay does nothing, a write fails with
`BMS_I2C_MEM_WRITE_ERROR`, a read fails with `BMS_I2C_MEM_READ_ERROR` and leaves
the buffer alone. -/
def weak_default : Collab σ where
  bms_delay := fun _ s => s
  bms_reg_write := fun _ _ _ s => (BMS_I2C_MEM_WRITE_ERROR, s)
  bms_reg_read := fun _ buf _ s => (BMS_I2C_MEM_READ_ERROR, buf, s)

/-- A call `bms_delay(msecs)`. -/
def call_delay (c : Collab σ) (msecs : Nat) (w : World σ) : World σ :=
  ⟨c.bms_delay msecs w.dev, w.trace ++ [Event.delay msecs]⟩

/-- A call `bms_reg_write(reg, (uint8_t*)&value, len)`. -/
def call_reg_write (c : Collab σ) (reg value len : Nat) (w : World σ) :
    bms_error_t × World σ :=
  let r := c.bms_reg_write reg value len w.dev
  (r.1, ⟨r.2, w.trace ++ [Event.reg_write reg value len]⟩)

/-- A call `bms_reg_read(reg, (uint8_t*)&buf, len)`. -/
def call_reg_read (c : Collab σ) (reg buf len : Nat) (w : World σ) :
    bms_error_t × Nat × World σ :=
  let r := c.bms_reg_read reg buf len w.dev
  (r.1, r.2.1, ⟨r.2.2, w.trace ++ [Event.reg_read reg len]⟩)

/-- A call of a reset routine `f`, recorded in the trace. -/
def call_full_reset (f : σ → bms_error_t × σ) (w : World σ) : bms_error_t × World σ :=
  let r := f w.dev
  (r.1, ⟨r.2, w.trace ++ [Event.full_reset]⟩)

/-! ## The driver (`bms.c`) -/

/-- The array `bms_revive_blacklist`. -/
def bms_revive_blacklist : List Nat :=
  [BMS_BIT_OVP, BMS_BIT_IMBALANCE, BMS_BIT_PREQF, BMS_BIT_PMFAIL]

/-- `bms_full_reset`: returns `BMS_RESET_ERROR` and touches nothing. -/
def bms_full_reset (s : σ) : bms_error_t × σ := (BMS_RESET_ERROR, s)

/-- `bms_apply_configuration`: returns `BMS_OK` and touches nothing. -/
def bms_apply_configuration (s : σ) : bms_error_t × σ := (BMS_OK, s)

/-- `bms_clear_permfail`: returns `BMS_PERM_FAIL_RESET_ERROR` and touches nothing. -/
def bms_clear_permfail (s : σ) : bms_error_t × σ := (BMS_PERM_FAIL_RESET_ERROR, s)

/-- The blacklist loop of `bms_bat_okay`: walk the array from index 0 and stop
at the first mask `m` with `data & m` non-zero (`true`: the loop returned
`BMS_CANNOT_REC`; `false`: the loop ran to its end). -/
def blacklist_hit (data : Nat) : List Nat → Bool
  | [] => false
  | m :: rest => if data &&& m ≠ 0 then true else blacklist_hit data rest

/-- The body of `bms_bat_okay`, with the routine called at step 2.2 and the array
scanned by the blacklist loop as the parameters `full_reset` and `blacklist`. -/
def bms_bat_okay_with (c : Collab σ) (full_reset : σ → bms_error_t × σ)
    (blacklist : List Nat) (w : World σ) : bms_error_t × World σ :=
  let data := 0
  -- 1. permanent fault
  let r1 := call_reg_read c BMS_REG_NBATTSTATUS data 2 w
  let status := u8 r1.1.val
  let data := u16 r1.2.1
  if status ≠ BMS_OK.val then (bms_error_t.of_val status, r1.2.2)
  else if data &&& BMS_BIT_PERMFAIL ≠ 0 then (BMS_PERM_FAIL_ERROR, r1.2.2)
  else
    -- 2. status register
    let r2 := call_reg_read c BMS_REG_STATUS data 2 r1.2.2
    let status := u8 r2.1.val
    let data := u16 r2.2.1
    if status ≠ BMS_OK.val then (bms_error_t.of_val status, r2.2.2)
    else if data &&& BMS_BIT_PROTALRT ≠ 0 then
      -- 2.1 historic protection alert data
      let r3 := call_reg_read c BMS_REG_PROTALRT data 2 r2.2.2
      let status := u8 r3.1.val
      let data := u16 r3.2.1
      if status ≠ BMS_OK.val then (bms_error_t.of_val status, r3.2.2)
      else if blacklist_hit data blacklist then (BMS_CANNOT_REC, r3.2.2)
      else
        -- 2.2 full reset
        let r4 := call_full_reset full_reset r3.2.2
        let status := u8 r4.1.val
        if status ≠ BMS_OK.val then (bms_error_t.of_val status, r4.2)
        else (BMS_OK, r4.2)
    else (BMS_OK, r2.2.2)

/-- `bms_bat_okay`. -/
def bms_bat_okay (c : Collab σ) (w : World σ) : bms_error_t × World σ :=
  bms_bat_okay_with c bms_full_reset bms_revive_blacklist w

/-! ### `float` and `double` arithmetic

The values of `float` and `double` objects are the rationals they denote (IEEE
754 binary32 and binary64); an operation rounds its exact result to the nearest
value of the format, ties to even, and is evaluated in the format of its type
(no excess precision).  The magnitudes that occur in the driver are far below
the overflow threshold, which is therefore not modelled. -/

/-- The integer nearest to `y`, the even one when `y` is half-way between two. -/
def round_half_even (y : ℚ) : Int :=
  if y - ⌊y⌋ < 1 / 2 then ⌊y⌋
  else if 1 / 2 < y - ⌊y⌋ then ⌊y⌋ + 1
  else if ⌊y⌋ % 2 = 0 then ⌊y⌋
  else ⌊y⌋ + 1

/-- Rounding of `x` to the binary format with `prec` significand bits whose
smallest positive (subnormal) value is `2 ^ emin`: `x` is rounded to a multiple
of its unit in the last place. -/
def round_to (prec : Nat) (emin : Int) (x : ℚ) : ℚ :=
  if x = 0 then 0
  else
    round_half_even (x / 2 ^ max (Int.log 2 |x| - (prec - 1)) emin)
      * 2 ^ max (Int.log 2 |x| - (prec - 1)) emin

/-- Conversion to `float` (binary32: 24 significand bits, least value `2^-149`). -/
def to_float (x : ℚ) : ℚ := round_to 24 (-149) x

/-- Conversion to `double` (binary64: 53 significand bits, least value `2^-1074`). -/
def to_double (x : ℚ) : ℚ := round_to 53 (-1074) x

/-- The C expression `(float)n * c` stored into a `float` object, `c` being a
`double` constant written as the decimal `c`: the integer is converted to
`float`, promoted to `double`, multiplied by the constant in `double`, and the
product is converted to `float` by the assignment. -/
def float_scale (n : Int) (c : ℚ) : ℚ :=
  to_float (to_double (to_float (n : ℚ) * to_double c))

/-- `bms_get_voltage`; `voltage` is the prior content of `*voltage`, the second
component of the result its content on return. -/
def bms_get_voltage (c : Collab σ) (voltage : ℚ) (w : World σ) :
    bms_error_t × ℚ × World σ :=
  let data := 0
  let r := call_reg_read c BMS_REG_VBAT data 2 w
  let status := u8 r.1.val
  let data := u16 r.2.1
  if status ≠ BMS_OK.val then (bms_error_t.of_val status, voltage, r.2.2)
  else (BMS_OK, float_scale (data : Nat) 0.3125e-3, r.2.2)

/-- `bms_get_current`; the buffer is an `int16_t`. -/
def bms_get_current (c : Collab σ) (current : ℚ) (w : World σ) :
    bms_error_t × ℚ × World σ :=
  let data := 0
  let r := call_reg_read c BMS_REG_CBAT data 2 w
  let status := u8 r.1.val
  let data := i16 r.2.1
  if status ≠ BMS_OK.val then (bms_error_t.of_val status, current, r.2.2)
  else (BMS_OK, float_scale data 1.5625e-3, r.2.2)

/-- `bms_get_soc`. -/
def bms_get_soc (c : Collab σ) (soc : ℚ) (w : World σ) : bms_error_t × ℚ × World σ :=
  let data := 0
  let r := call_reg_read c BMS_REG_REPCAP data 2 w
  let status := u8 r.1.val
  let data := u16 r.2.1
  if status ≠ BMS_OK.val then (bms_error_t.of_val status, soc, r.2.2)
  else (BMS_OK, float_scale (data : Nat) 5e-3, r.2.2)

/-- `bms_get_full_capacity`. -/
def bms_get_full_capacity (c : Collab σ) (full_cap : ℚ) (w : World σ) :
    bms_error_t × ℚ × World σ :=
  let data := 0
  let r := call_reg_read c BMS_REG_FULLCAP data 2 w
  let status := u8 r.1.val
  let data := u16 r.2.1
  if status ≠ BMS_OK.val then (bms_error_t.of_val status, full_cap, r.2.2)
  else (BMS_OK, float_scale (data : Nat) 5e-3, r.2.2)

/-- The bit-scan loop of `bms_get_nv_writes_remaining`,
`for(uint8_t i = 0; i < 8; i++) if(value & (0x8000 >> i)) { *count = i; break; }`,
entered at loop index `i` with `fuel` iterations allowed; the result is the
content of `*count` when the loop is left. -/
def nv_scan (value count : Nat) : Nat → Nat → Nat
  | 0, _ => count
  | fuel + 1, i =>
    if i < 8 then
      if value &&& (0x8000 >>> i) ≠ 0 then i
      else nv_scan value count fuel (u8 (i + 1))
    else count

/-- `bms_get_nv_writes_remaining`; `count` is the prior content of `*count`, the
second component of the result its content on return.  The status of the first
write of each pair is overwritten by the second before it is tested. -/
def bms_get_nv_writes_remaining (c : Collab σ) (count : Nat) (w : World σ) :
    bms_error_t × Nat × World σ :=
  -- unlock write protection
  let value := 0
  let r1 := call_reg_write c BMS_REG_COMMSTAT value 2 w
  let r2 := call_reg_write c BMS_REG_COMMSTAT value 2 r1.2
  let status := u8 r2.1.val
  if status ≠ BMS_OK.val then (bms_error_t.of_val status, count, r2.2)
  else
    let value := 0xE29B
    let r3 := call_reg_write c BMS_REG_CMDREG value 2 r2.2
    let status := u8 r3.1.val
    if status ≠ BMS_OK.val then (bms_error_t.of_val status, count, r3.2)
    else
      let w4 := call_delay c 10 r3.2
      let r5 := call_reg_read c 0x01FD value 2 w4
      let status := u8 r5.1.val
      let value := u16 r5.2.1
      if status ≠ BMS_OK.val then (bms_error_t.of_val status, count, r5.2.2)
      else
        let count := nv_scan value count 8 0
        -- lock write protection
        let value := 0x00F9
        let r6 := call_reg_write c BMS_REG_COMMSTAT value 2 r5.2.2
        let r7 := call_reg_write c BMS_REG_COMMSTAT value 2 r6.2
        let status := u8 r7.1.val
        if status ≠ BMS_OK.val then (bms_error_t.of_val status, count, r7.2)
        else (BMS_OK, count, r7.2)

/-- The struct `bms_stats_tag` (named `bms_stats` by `bms_get_stats`). -/
structure bms_stats_t where
  volts : ℚ
  amps : ℚ
  soc : ℚ
  cap : ℚ
  deriving DecidableEq

/-- `bms_get_stats`; `stats` is the prior content of `*stats`, the second
component of the result its content on return. -/
def bms_get_stats (c : Collab σ) (stats : bms_stats_t) (w : World σ) :
    bms_error_t × bms_stats_t × World σ :=
  let r1 := bms_get_voltage c stats.volts w
  let status := u8 r1.1.val
  let stats := { stats with volts := r1.2.1 }
  if status ≠ BMS_OK.val then (bms_error_t.of_val status, stats, r1.2.2)
  else
    let r2 := bms_get_current c stats.amps r1.2.2
    let status := u8 r2.1.val
    let stats := { stats with amps := r2.2.1 }
    if status ≠ BMS_OK.val then (bms_error_t.of_val status, stats, r2.2.2)
    else
      let r3 := bms_get_soc c stats.soc r2.2.2
      let status := u8 r3.1.val
      let stats := { stats with soc := r3.2.1 }
      if status ≠ BMS_OK.val then (bms_error_t.of_val status, stats, r3.2.2)
      else
        let r4 := bms_get_full_capacity c stats.cap r3.2.2
        let status := u8 r4.1.val
        let stats := { stats with cap := r4.2.1 }
        if status ≠ BMS_OK.val then (bms_error_t.of_val status, stats, r4.2.2)
        else (bms_error_t.of_val status, stats, r4.2.2)

/-! ## Specification-side definitions -/

/-- Number of leading zero bits of `v` read as a `width`-bit value, most
significant bit first. -/
def leading_zeros (v : Nat) : Nat → Nat
  | 0 => 0
  | width + 1 => if v.testBit width then 0 else leading_zeros v width + 1

/-! ## Concrete transports used as test fixtures -/

/-- A transport on which every transaction succeeds and a read returns a value
fixed per register: `ext` at nBattStatus, `status` at the status register,
`hist` at every other address. -/
def fixed_bus (ext status hist : Nat) : Collab Unit where
  bms_delay := fun _ s => s
  bms_reg_write := fun _ _ _ s => (BMS_OK, s)
  bms_reg_read := fun reg _ _ s =>
    if reg = BMS_REG_NBATTSTATUS then (BMS_OK, ext, s)
    else if reg = BMS_REG_STATUS then (BMS_OK, status, s)
    else (BMS_OK, hist, s)

/-- A transport whose state counts the transactions made so far; the transaction
number `bad` (counted from 0) fails with `e`, every other one succeeds, and a
read returns `ext` at nBattStatus, `status` at the status register and `hist` at
every other address. -/
def failing_bus (bad : Nat) (e : bms_error_t) (ext status hist : Nat) : Collab Nat where
  bms_delay := fun _ s => s
  bms_reg_write := fun _ _ _ s => (if s = bad then e else BMS_OK, s + 1)
  bms_reg_read := fun reg _ _ s =>
    (if s = bad then e else BMS_OK,
      if reg = BMS_REG_NBATTSTATUS then ext else if reg = BMS_REG_STATUS then status else hist,
      s + 1)

/-! ## Basic facts about status codes -/

theorem u8_val (e : bms_error_t) : u8 e.val = e.val := by
  cases e <;> rfl

theorem of_val_u8_val (e : bms_error_t) : bms_error_t.of_val (u8 e.val) = e := by
  cases e <;> rfl

theorem u8_val_eq_ok_iff (e : bms_error_t) : u8 e.val = BMS_OK.val ↔ e = BMS_OK := by
  cases e <;> decide

theorem blacklist_hit_eq_true_iff (data : Nat) (l : List Nat) :
    blacklist_hit data l = true ↔ ∃ m ∈ l, data &&& m ≠ 0 := by
  induction l with
  | nil => simp [blacklist_hit]
  | cons m rest ih =>
    by_cases h : data &&& m = 0
    · simp [blacklist_hit, h, ih]
    · simp [blacklist_hit, h]

theorem blacklist_hit_eq_false_iff (data : Nat) (l : List Nat) :
    blacklist_hit data l = false ↔ ∀ m ∈ l, data &&& m = 0 := by
  rw [← Bool.not_eq_true, blacklist_hit_eq_true_iff]
  simp

/-! ## `bms_bat_okay` -/

/-- C1: when the nBattStatus read succeeds with the permanent-fail bit set,
`bms_bat_okay` returns `BMS_PERM_FAIL_ERROR` whatever the other bits are, and the
only collaborator call it makes is that one read (no further read, no reset).
Holds for every reset routine and blacklist, in particular for `bms_bat_okay`. -/
theorem bat_okay_permfail (c : Collab σ) (full_reset : σ → bms_error_t × σ)
    (blacklist : List Nat) (w : World σ) (v : Nat) (s1 : σ)
    (h1 : c.bms_reg_read BMS_REG_NBATTSTATUS 0 2 w.dev = (BMS_OK, v, s1))
    (hbit : u16 v &&& 0x8000 ≠ 0) :
    bms_bat_okay_with c full_reset blacklist w
        = (BMS_PERM_FAIL_ERROR, ⟨s1, w.trace ++ [Event.reg_read 0x01A8 2]⟩)
      ∧ bms_bat_okay c w
        = (BMS_PERM_FAIL_ERROR, ⟨s1, w.trace ++ [Event.reg_read 0x01A8 2]⟩) := by
  have key : ∀ (f : σ → bms_error_t × σ) (bl : List Nat), bms_bat_okay_with c f bl w
      = (BMS_PERM_FAIL_ERROR, ⟨s1, w.trace ++ [Event.reg_read 0x01A8 2]⟩) := by
    intro f bl
    simp only [bms_bat_okay_with, call_reg_read, h1, ne_eq, u8_val_eq_ok_iff]
    simp only [BMS_BIT_PERMFAIL, BMS_REG_NBATTSTATUS]
    simp [hbit]
  exact ⟨key _ _, key _ _⟩

/-- Witness for C1: extended status `0x8001` (permanent-fail bit and one more). -/
theorem bat_okay_permfail_witness :
    bms_bat_okay (fixed_bus 0x8001 0x8000 0x0800) ⟨(), []⟩
      = (BMS_PERM_FAIL_ERROR, ⟨(), [Event.reg_read 0x01A8 2]⟩) :=
  (bat_okay_permfail (fixed_bus 0x8001 0x8000 0x0800) bms_full_reset bms_revive_blacklist
    ⟨(), []⟩ 0x8001 () rfl (by decide)).2

/-- C2: when the nBattStatus read succeeds with the permanent-fail bit clear, the
status read succeeds with the protection-alert bit set and the PROTALRT read
succeeds with a value that meets at least one mask of `bms_revive_blacklist`,
the result is the cannot-recover code, and the calls made are exactly the three
reads: `bms_full_reset` is not invoked. -/
theorem bat_okay_blacklisted (c : Collab σ) (full_reset : σ → bms_error_t × σ)
    (w : World σ) (v1 v2 v3 : Nat) (s1 s2 s3 : σ)
    (h1 : c.bms_reg_read BMS_REG_NBATTSTATUS 0 2 w.dev = (BMS_OK, v1, s1))
    (hpf : u16 v1 &&& 0x8000 = 0)
    (h2 : c.bms_reg_read BMS_REG_STATUS (u16 v1) 2 s1 = (BMS_OK, v2, s2))
    (hpa : u16 v2 &&& 0x8000 ≠ 0)
    (h3 : c.bms_reg_read BMS_REG_PROTALRT (u16 v2) 2 s2 = (BMS_OK, v3, s3))
    (hbl : ∃ m ∈ bms_revive_blacklist, u16 v3 &&& m ≠ 0) :
    bms_revive_blacklist = [0x0800, 0x0080, 0x0100, 0x0040]
      ∧ bms_bat_okay_with c full_reset bms_revive_blacklist w
        = (BMS_CANNOT_REC_ERROR, ⟨s3, w.trace ++
            [Event.reg_read 0x01A8 2, Event.reg_read 0x0000 2, Event.reg_read 0x00AF 2]⟩)
      ∧ bms_bat_okay c w
        = (BMS_CANNOT_REC_ERROR, ⟨s3, w.trace ++
            [Event.reg_read 0x01A8 2, Event.reg_read 0x0000 2, Event.reg_read 0x00AF 2]⟩) := by
  have hit := (blacklist_hit_eq_true_iff (u16 v3) bms_revive_blacklist).2 hbl
  have key : ∀ (f : σ → bms_error_t × σ), bms_bat_okay_with c f bms_revive_blacklist w
      = (BMS_CANNOT_REC_ERROR, ⟨s3, w.trace ++
          [Event.reg_read 0x01A8 2, Event.reg_read 0x0000 2, Event.reg_read 0x00AF 2]⟩) := by
    intro f
    simp only [bms_bat_okay_with, call_reg_read, h1, h2, h3, ne_eq, u8_val_eq_ok_iff,
      BMS_BIT_PERMFAIL, BMS_BIT_PROTALRT, hpf, hit]
    simp [hpa, BMS_CANNOT_REC, BMS_REG_NBATTSTATUS, BMS_REG_STATUS, BMS_REG_PROTALRT]
  exact ⟨rfl, key _, key _⟩

/-- Witness for C2: extended status `0x0000`, status `0x8000`, historic alert
`0x0800` (OVP) gives the cannot-recover code. -/
theorem bat_okay_blacklisted_witness :
    bms_bat_okay (fixed_bus 0x0000 0x8000 0x0800) ⟨(), []⟩
      = (BMS_CANNOT_REC_ERROR, ⟨(),
          [Event.reg_read 0x01A8 2, Event.reg_read 0x0000 2, Event.reg_read 0x00AF 2]⟩) :=
  (bat_okay_blacklisted (fixed_bus 0x0000 0x8000 0x0800) bms_full_reset ⟨(), []⟩
    0x0000 0x8000 0x0800 () () () rfl (by decide) rfl (by decide) rfl
    ⟨0x0800, by decide, by decide⟩).2.2

/-- C3: when all three reads succeed, the permanent-fail bit is clear, the
protection-alert bit is set and the historic value meets no mask of
`bms_revive_blacklist`, the reset routine is called exactly once, after the three
reads, and the result is the code `e` that call returned (so `BMS_OK` when the
reset returns `BMS_OK`). -/
theorem bat_okay_reset_path (c : Collab σ) (full_reset : σ → bms_error_t × σ)
    (w : World σ) (v1 v2 v3 : Nat) (s1 s2 s3 s4 : σ) (e : bms_error_t)
    (h1 : c.bms_reg_read BMS_REG_NBATTSTATUS 0 2 w.dev = (BMS_OK, v1, s1))
    (hpf : u16 v1 &&& 0x8000 = 0)
    (h2 : c.bms_reg_read BMS_REG_STATUS (u16 v1) 2 s1 = (BMS_OK, v2, s2))
    (hpa : u16 v2 &&& 0x8000 ≠ 0)
    (h3 : c.bms_reg_read BMS_REG_PROTALRT (u16 v2) 2 s2 = (BMS_OK, v3, s3))
    (hbl : ∀ m ∈ bms_revive_blacklist, u16 v3 &&& m = 0)
    (h4 : full_reset s3 = (e, s4)) :
    bms_bat_okay_with c full_reset bms_revive_blacklist w
      = (e, ⟨s4, w.trace ++ [Event.reg_read 0x01A8 2, Event.reg_read 0x0000 2,
          Event.reg_read 0x00AF 2, Event.full_reset]⟩) := by
  have miss := (blacklist_hit_eq_false_iff (u16 v3) bms_revive_blacklist).2 hbl
  simp only [bms_bat_okay_with, call_reg_read, call_full_reset, h1, h2, h3, h4, ne_eq,
    u8_val_eq_ok_iff, of_val_u8_val, BMS_BIT_PERMFAIL, BMS_BIT_PROTALRT, hpf, miss]
  by_cases he : e = BMS_OK
  · simp [hpa, he, BMS_REG_NBATTSTATUS, BMS_REG_STATUS, BMS_REG_PROTALRT]
  · simp [hpa, he, BMS_REG_NBATTSTATUS, BMS_REG_STATUS, BMS_REG_PROTALRT]

/-- Witness for C3: extended status `0x0000`, status `0x8000`, historic alert
`0x0010` (TOOHOTD), and a reset routine that succeeds: the result is `BMS_OK`. -/
theorem bat_okay_reset_path_witness :
    bms_bat_okay_with (fixed_bus 0x0000 0x8000 0x0010) (fun s => (BMS_OK, s))
        bms_revive_blacklist ⟨(), []⟩
      = (BMS_OK, ⟨(), [Event.reg_read 0x01A8 2, Event.reg_read 0x0000 2,
          Event.reg_read 0x00AF 2, Event.full_reset]⟩) :=
  bat_okay_reset_path (fixed_bus 0x0000 0x8000 0x0010) (fun s => (BMS_OK, s)) ⟨(), []⟩
    0x0000 0x8000 0x0010 () () () () BMS_OK rfl (by decide) rfl (by decide) rfl
    (by decide) rfl

/-- C4: when the nBattStatus read succeeds with the permanent-fail bit clear and
the status read succeeds with the protection-alert bit clear, the result is
`BMS_OK` and the calls made are exactly the two reads: PROTALRT is not read and
`bms_full_reset` is not invoked. -/
theorem bat_okay_no_alert (c : Collab σ) (full_reset : σ → bms_error_t × σ)
    (blacklist : List Nat) (w : World σ) (v1 v2 : Nat) (s1 s2 : σ)
    (h1 : c.bms_reg_read BMS_REG_NBATTSTATUS 0 2 w.dev = (BMS_OK, v1, s1))
    (hpf : u16 v1 &&& 0x8000 = 0)
    (h2 : c.bms_reg_read BMS_REG_STATUS (u16 v1) 2 s1 = (BMS_OK, v2, s2))
    (hpa : u16 v2 &&& 0x8000 = 0) :
    bms_bat_okay_with c full_reset blacklist w
        = (BMS_OK, ⟨s2, w.trace ++ [Event.reg_read 0x01A8 2, Event.reg_read 0x0000 2]⟩)
      ∧ bms_bat_okay c w
        = (BMS_OK, ⟨s2, w.trace ++ [Event.reg_read 0x01A8 2, Event.reg_read 0x0000 2]⟩) := by
  have key : ∀ (f : σ → bms_error_t × σ) (bl : List Nat), bms_bat_okay_with c f bl w
      = (BMS_OK, ⟨s2, w.trace ++ [Event.reg_read 0x01A8 2, Event.reg_read 0x0000 2]⟩) := by
    intro f bl
    simp only [bms_bat_okay_with, call_reg_read, h1, h2, ne_eq, u8_val_eq_ok_iff,
      BMS_BIT_PERMFAIL, BMS_BIT_PROTALRT, hpf, hpa]
    simp [BMS_REG_NBATTSTATUS, BMS_REG_STATUS]
  exact ⟨key _ _, key _ _⟩

/-- Witness for C4: extended status `0x7FFF`, status `0x7FFF`. -/
theorem bat_okay_no_alert_witness :
    bms_bat_okay (fixed_bus 0x7FFF 0x7FFF 0x0800) ⟨(), []⟩
      = (BMS_OK, ⟨(), [Event.reg_read 0x01A8 2, Event.reg_read 0x0000 2]⟩) :=
  (bat_okay_no_alert (fixed_bus 0x7FFF 0x7FFF 0x0800) bms_full_reset bms_revive_blacklist
    ⟨(), []⟩ 0x7FFF 0x7FFF () () rfl (by decide) rfl (by decide)).2

/-! ## The operations that are disabled at run time -/

/-- C5 fails as stated: `bms_apply_configuration` returns `BMS_OK`, and
`bms_full_reset` and `bms_clear_permfail` return two different codes. -/
theorem unsupported_ops_counterexample :
    ¬ ((bms_full_reset ()).1 ≠ BMS_OK ∧ (bms_apply_configuration ()).1 ≠ BMS_OK
        ∧ (bms_clear_permfail ()).1 ≠ BMS_OK
        ∧ (bms_full_reset ()).1 = (bms_apply_configuration ()).1
        ∧ (bms_apply_configuration ()).1 = (bms_clear_permfail ()).1) := by
  decide

/-- C5 as amended: on every call `bms_full_reset` fails with `BMS_RESET_ERROR`,
`bms_clear_permfail` fails with `BMS_PERM_FAIL_RESET_ERROR` (neither is ever
`BMS_OK`, and the two codes differ), and `bms_apply_configuration` returns
`BMS_OK`; none of them changes the device state. -/
theorem unsupported_ops_fixed_codes (s : σ) :
    bms_full_reset s = (BMS_RESET_ERROR, s)
      ∧ bms_clear_permfail s = (BMS_PERM_FAIL_RESET_ERROR, s)
      ∧ bms_apply_configuration s = (BMS_OK, s)
      ∧ (bms_full_reset s).1 ≠ BMS_OK ∧ (bms_clear_permfail s).1 ≠ BMS_OK
      ∧ (bms_full_reset s).1 ≠ (bms_clear_permfail s).1 := by
  refine ⟨rfl, rfl, rfl, ?_, ?_, ?_⟩ <;> simp [bms_full_reset, bms_clear_permfail]

/-! ## `bms_get_nv_writes_remaining` -/

/-- C6 at a failing input: the first unlock write fails with
`BMS_I2C_MEM_WRITE_ERROR` and every later transaction succeeds (the read returns
`0x1000`).  All seven collaborator calls are still made and the function returns
`BMS_OK`: the failure of the first write of the pair is lost.  With the `__weak`
default transport, on which every write fails, the second unlock write is still
issued before the failure is returned. -/
theorem nv_first_unlock_failure_lost :
    bms_get_nv_writes_remaining (failing_bus 0 BMS_I2C_MEM_WRITE_ERROR 0 0 0x1000) 0 ⟨0, []⟩
        = (BMS_OK, 3, ⟨6, [Event.reg_write 0x0061 0x0000 2, Event.reg_write 0x0061 0x0000 2,
            Event.reg_write 0x0060 0xE29B 2, Event.delay 10, Event.reg_read 0x01FD 2,
            Event.reg_write 0x0061 0x00F9 2, Event.reg_write 0x0061 0x00F9 2]⟩)
      ∧ bms_get_nv_writes_remaining weak_default 0 ⟨(), []⟩
        = (BMS_I2C_MEM_WRITE_ERROR, 0,
            ⟨(), [Event.reg_write 0x0061 0x0000 2, Event.reg_write 0x0061 0x0000 2]⟩) := by
  decide

/-- The same loss at the first re-lock write (transaction number 4, counted
from 0): the second re-lock write is still made and the result is `BMS_OK`. -/
theorem nv_first_relock_failure_lost :
    bms_get_nv_writes_remaining (failing_bus 4 BMS_I2C_MEM_WRITE_ERROR 0 0 0x1000) 0 ⟨0, []⟩
      = (BMS_OK, 3, ⟨6, [Event.reg_write 0x0061 0x0000 2, Event.reg_write 0x0061 0x0000 2,
          Event.reg_write 0x0060 0xE29B 2, Event.delay 10, Event.reg_read 0x01FD 2,
          Event.reg_write 0x0061 0x00F9 2, Event.reg_write 0x0061 0x00F9 2]⟩) := by
  decide

/-- The transactions whose status is tested do propagate: a failure of the
second unlock write, the command write, the read or the second re-lock write is
returned at once. -/
theorem nv_checked_failures_propagate (e : bms_error_t) (he : e ≠ BMS_OK) :
    bms_get_nv_writes_remaining (failing_bus 1 e 0 0 0x1000) 0 ⟨0, []⟩
        = (e, 0, ⟨2, [Event.reg_write 0x0061 0x0000 2, Event.reg_write 0x0061 0x0000 2]⟩)
      ∧ bms_get_nv_writes_remaining (failing_bus 2 e 0 0 0x1000) 0 ⟨0, []⟩
        = (e, 0, ⟨3, [Event.reg_write 0x0061 0x0000 2, Event.reg_write 0x0061 0x0000 2,
            Event.reg_write 0x0060 0xE29B 2]⟩)
      ∧ bms_get_nv_writes_remaining (failing_bus 3 e 0 0 0x1000) 0 ⟨0, []⟩
        = (e, 0, ⟨4, [Event.reg_write 0x0061 0x0000 2, Event.reg_write 0x0061 0x0000 2,
            Event.reg_write 0x0060 0xE29B 2, Event.delay 10, Event.reg_read 0x01FD 2]⟩)
      ∧ bms_get_nv_writes_remaining (failing_bus 5 e 0 0 0x1000) 0 ⟨0, []⟩
        = (e, 3, ⟨6, [Event.reg_write 0x0061 0x0000 2, Event.reg_write 0x0061 0x0000 2,
            Event.reg_write 0x0060 0xE29B 2, Event.delay 10, Event.reg_read 0x01FD 2,
            Event.reg_write 0x0061 0x00F9 2, Event.reg_write 0x0061 0x00F9 2]⟩) := by
  cases e <;> first | exact absurd rfl he | decide

theorem land_two_pow_ne_zero_iff (v k : Nat) : v &&& 2 ^ k ≠ 0 ↔ v.testBit k = true := by
  rw [Nat.and_two_pow]
  cases v.testBit k <;> simp

/-- A value that meets the mask `0xFF00` has one of the bits 15..8 set. -/
theorem top_byte_bit_of_land (v : Nat) (h : v &&& 0xFF00 ≠ 0) :
    v.testBit 15 = true ∨ v.testBit 14 = true ∨ v.testBit 13 = true ∨ v.testBit 12 = true
      ∨ v.testBit 11 = true ∨ v.testBit 10 = true ∨ v.testBit 9 = true
      ∨ v.testBit 8 = true := by
  by_contra hno
  simp only [not_or, Bool.not_eq_true] at hno
  obtain ⟨h15, h14, h13, h12, h11, h10, h9, h8⟩ := hno
  apply h
  apply Nat.eq_of_testBit_eq
  intro i
  rw [Nat.testBit_and, Nat.zero_testBit]
  by_cases hi : i < 16
  · interval_cases i <;> simp_all <;> intro _ <;> decide
  · have : Nat.testBit 0xFF00 i = false :=
      Nat.testBit_lt_two_pow (lt_of_lt_of_le (by norm_num) (Nat.pow_le_pow_right (by norm_num)
        (not_lt.mp hi)))
    simp [this]

/-- The loop needs at most 8 iterations: more fuel does not change its result. -/
theorem nv_scan_fuel (value count : Nat) :
    ∀ (fuel i : Nat), i ≤ 8 → 8 - i ≤ fuel →
      nv_scan value count fuel i = nv_scan value count (8 - i) i := by
  intro fuel
  induction fuel with
  | zero =>
    intro i hi hf
    have : 8 - i = 0 := by omega
    rw [this]
  | succ n ih =>
    intro i hi hf
    by_cases h8 : i < 8
    · have e1 : 8 - i = (8 - (i + 1)) + 1 := by omega
      have e2 : u8 (i + 1) = i + 1 := by unfold u8; omega
      rw [e1]
      simp only [nv_scan, h8, if_true, e2]
      rw [ih (i + 1) (by omega) (by omega)]
    · have : i = 8 := by omega
      subst this
      simp [nv_scan]

/-- One iteration of the scan at index `i < 8` tests bit `15 - i`. -/
theorem nv_scan_step (v count fuel i : Nat) (hi : i < 8) :
    nv_scan v count (fuel + 1) i =
      if v.testBit (15 - i) then i else nv_scan v count fuel (i + 1) := by
  have hs : 0x8000 >>> i = 2 ^ (15 - i) := by
    rw [Nat.shiftRight_eq_div_pow, show (0x8000 : Nat) = 2 ^ 15 by norm_num,
      Nat.pow_div (by omega) (by norm_num)]
  have e2 : u8 (i + 1) = i + 1 := by unfold u8; omega
  have ht := land_two_pow_ne_zero_iff v (15 - i)
  simp only [nv_scan, hi, if_true, hs, e2]
  by_cases hb : v.testBit (15 - i) = true
  · simp [hb, ht.2 hb]
  · have : v &&& 2 ^ (15 - i) = 0 := by
      by_contra hne
      exact hb (ht.1 hne)
    simp [hb, this]

/-- The scan, unrolled: the index of the first set bit among bits 15..8. -/
theorem nv_scan_unrolled (v count : Nat) :
    nv_scan v count 8 0 =
      if v.testBit 15 then 0 else if v.testBit 14 then 1 else if v.testBit 13 then 2
      else if v.testBit 12 then 3 else if v.testBit 11 then 4 else if v.testBit 10 then 5
      else if v.testBit 9 then 6 else if v.testBit 8 then 7 else count := by
  rw [nv_scan_step v count 7 0 (by norm_num), nv_scan_step v count 6 1 (by norm_num),
    nv_scan_step v count 5 2 (by norm_num), nv_scan_step v count 4 3 (by norm_num),
    nv_scan_step v count 3 4 (by norm_num), nv_scan_step v count 2 5 (by norm_num),
    nv_scan_step v count 1 6 (by norm_num), nv_scan_step v count 0 7 (by norm_num)]
  rfl

/-- With a bit set in the top byte the scan assigns the MSB-first index of the
first set bit, which is the number of leading zeros of the 16-bit value and of
its top byte. -/
theorem nv_scan_first_set_bit (v count : Nat) (h : v &&& 0xFF00 ≠ 0) :
    nv_scan v count 8 0 ≤ 7
      ∧ v.testBit (15 - nv_scan v count 8 0) = true
      ∧ (∀ j, j < nv_scan v count 8 0 → v.testBit (15 - j) = false)
      ∧ nv_scan v count 8 0 = leading_zeros v 16
      ∧ nv_scan v count 8 0 = leading_zeros (v >>> 8) 8 := by
  have hbits := top_byte_bit_of_land v h
  rw [nv_scan_unrolled]
  simp only [leading_zeros, Nat.testBit_shiftRight]
  norm_num
  by_cases b15 : v.testBit 15 = true
  · simp [b15]
  by_cases b14 : v.testBit 14 = true
  · simp [b15, b14]
  by_cases b13 : v.testBit 13 = true
  · simp [b15, b14, b13]
    intro j hj
    interval_cases j <;> simp_all
  by_cases b12 : v.testBit 12 = true
  · simp [b15, b14, b13, b12]
    intro j hj
    interval_cases j <;> simp_all
  by_cases b11 : v.testBit 11 = true
  · simp [b15, b14, b13, b12, b11]
    intro j hj
    interval_cases j <;> simp_all
  by_cases b10 : v.testBit 10 = true
  · simp [b15, b14, b13, b12, b11, b10]
    intro j hj
    interval_cases j <;> simp_all
  by_cases b9 : v.testBit 9 = true
  · simp [b15, b14, b13, b12, b11, b10, b9]
    intro j hj
    interval_cases j <;> simp_all
  by_cases b8 : v.testBit 8 = true
  · simp [b15, b14, b13, b12, b11, b10, b9, b8]
    intro j hj
    interval_cases j <;> simp_all
  · simp_all

/-- What `bms_get_nv_writes_remaining` computes when all six transactions
succeed: `BMS_OK`, and `*count` as left by the scan of the value read. -/
theorem nv_writes_remaining_all_ok (c : Collab σ) (count : Nat) (w : World σ) (d : Nat)
    (s1 s2 s3 s5 s6 s7 : σ)
    (h1 : c.bms_reg_write BMS_REG_COMMSTAT 0x0000 2 w.dev = (BMS_OK, s1))
    (h2 : c.bms_reg_write BMS_REG_COMMSTAT 0x0000 2 s1 = (BMS_OK, s2))
    (h3 : c.bms_reg_write BMS_REG_CMDREG 0xE29B 2 s2 = (BMS_OK, s3))
    (h5 : c.bms_reg_read 0x01FD 0xE29B 2 (c.bms_delay 10 s3) = (BMS_OK, d, s5))
    (h6 : c.bms_reg_write BMS_REG_COMMSTAT 0x00F9 2 s5 = (BMS_OK, s6))
    (h7 : c.bms_reg_write BMS_REG_COMMSTAT 0x00F9 2 s6 = (BMS_OK, s7)) :
    bms_get_nv_writes_remaining c count w
      = (BMS_OK, nv_scan (u16 d) count 8 0,
          ⟨s7, w.trace ++ [Event.reg_write 0x0061 0x0000 2, Event.reg_write 0x0061 0x0000 2,
            Event.reg_write 0x0060 0xE29B 2, Event.delay 10, Event.reg_read 0x01FD 2,
            Event.reg_write 0x0061 0x00F9 2, Event.reg_write 0x0061 0x00F9 2]⟩) := by
  simp only [bms_get_nv_writes_remaining, call_reg_write, call_reg_read, call_delay,
    h1, h2, h3, h5, h6, h7, ne_eq, u8_val_eq_ok_iff]
  simp [BMS_REG_COMMSTAT, BMS_REG_CMDREG]

/-- C7: when all transport steps succeed and the 16-bit value read from `0x01FD`
has a bit set among bits 15..8, the function returns `BMS_OK` and the value
stored in `*count` is the number of leading zero bits of the 16-bit value; it is
at most 7, equals the number of leading zeros of the top byte, and is the
MSB-first index of the first set bit (that bit is set, all before it are clear). -/
theorem nv_writes_remaining_count (c : Collab σ) (count : Nat) (w : World σ) (d : Nat)
    (s1 s2 s3 s5 s6 s7 : σ)
    (h1 : c.bms_reg_write BMS_REG_COMMSTAT 0x0000 2 w.dev = (BMS_OK, s1))
    (h2 : c.bms_reg_write BMS_REG_COMMSTAT 0x0000 2 s1 = (BMS_OK, s2))
    (h3 : c.bms_reg_write BMS_REG_CMDREG 0xE29B 2 s2 = (BMS_OK, s3))
    (h5 : c.bms_reg_read 0x01FD 0xE29B 2 (c.bms_delay 10 s3) = (BMS_OK, d, s5))
    (h6 : c.bms_reg_write BMS_REG_COMMSTAT 0x00F9 2 s5 = (BMS_OK, s6))
    (h7 : c.bms_reg_write BMS_REG_COMMSTAT 0x00F9 2 s6 = (BMS_OK, s7))
    (hb : u16 d &&& 0xFF00 ≠ 0) :
    (bms_get_nv_writes_remaining c count w).1 = BMS_OK
      ∧ (bms_get_nv_writes_remaining c count w).2.1 = leading_zeros (u16 d) 16
      ∧ (bms_get_nv_writes_remaining c count w).2.1 = leading_zeros (u16 d >>> 8) 8
      ∧ (bms_get_nv_writes_remaining c count w).2.1 ≤ 7
      ∧ (u16 d).testBit (15 - (bms_get_nv_writes_remaining c count w).2.1) = true
      ∧ ∀ j, j < (bms_get_nv_writes_remaining c count w).2.1 →
          (u16 d).testBit (15 - j) = false := by
  rw [nv_writes_remaining_all_ok c count w d s1 s2 s3 s5 s6 s7 h1 h2 h3 h5 h6 h7]
  obtain ⟨hle, hset, hclear, hlz, hlz8⟩ := nv_scan_first_set_bit (u16 d) count hb
  exact ⟨rfl, hlz, hlz8, hle, hset, hclear⟩

/-- Witness for C7: the value `0x1000` gives 3 and the value `0x8000` gives 0
(with `*count` holding 99 before the call). -/
theorem nv_writes_remaining_count_witness :
    (bms_get_nv_writes_remaining (fixed_bus 0 0 0x1000) 99 ⟨(), []⟩).2.1 = 3
      ∧ (bms_get_nv_writes_remaining (fixed_bus 0 0 0x8000) 99 ⟨(), []⟩).2.1 = 0 :=
  ⟨(nv_writes_remaining_count (fixed_bus 0 0 0x1000) 99 ⟨(), []⟩ 0x1000 () () () () () ()
      rfl rfl rfl rfl rfl rfl (by decide)).2.1,
    (nv_writes_remaining_count (fixed_bus 0 0 0x8000) 99 ⟨(), []⟩ 0x8000 () () () () () ()
      rfl rfl rfl rfl rfl rfl (by decide)).2.1⟩

/-! ## `float` and `double` rounding -/

/-- Rounding to the nearest integer moves a value by at most one half. -/
theorem round_half_even_abs_sub_le (y : ℚ) : |(round_half_even y : ℚ) - y| ≤ 1 / 2 := by
  have h1 := Int.floor_le y
  have h2 := Int.lt_floor_add_one y
  unfold round_half_even
  split_ifs <;> push_cast <;> rw [abs_le] <;> constructor <;> linarith

/-- An integer nearer than one half to `y` is the one `y` is rounded to. -/
theorem round_half_even_eq (y : ℚ) (m : Int) (h : |y - m| < 1 / 2) :
    round_half_even y = m := by
  have h1 := round_half_even_abs_sub_le y
  have h2 : |((round_half_even y - m : Int) : ℚ)| < 1 := by
    push_cast
    have : (round_half_even y : ℚ) - m = ((round_half_even y : ℚ) - y) + (y - m) := by ring
    rw [this]
    calc |((round_half_even y : ℚ) - y) + (y - m)|
        ≤ |(round_half_even y : ℚ) - y| + |y - m| := abs_add _ _
      _ < 1 / 2 + 1 / 2 := by linarith
      _ = 1 := by norm_num
  have h3 : |round_half_even y - m| < 1 := by
    have := h2
    rw [← Int.cast_abs] at this
    exact_mod_cast this
  have h4 := Int.abs_lt_one_iff.1 h3
  omega

/-- The binary exponent of a value between two consecutive powers of two. -/
theorem int_log_two_eq (x : ℚ) (e : Int) (hlo : (2 : ℚ) ^ e ≤ |x|) (hhi : |x| < 2 ^ (e + 1)) :
    Int.log 2 |x| = e := by
  have hpos : (0 : ℚ) < |x| := lt_of_lt_of_le (by positivity) hlo
  have h1 : e ≤ Int.log 2 |x| := by
    rw [← Int.zpow_le_iff_le_log (by norm_num) hpos]
    simpa using hlo
  have h2 : Int.log 2 |x| < e + 1 := by
    rw [← Int.lt_zpow_iff_log_lt (by norm_num) hpos]
    simpa using hhi
  omega

/-- Evaluation of `round_to` at a value whose binary exponent `e` and rounded
significand `m` are given. -/
theorem round_to_eq (prec : Nat) (emin : Int) (x : ℚ) (e m : Int)
    (hlo : (2 : ℚ) ^ e ≤ |x|) (hhi : |x| < 2 ^ (e + 1)) (hk : emin ≤ e - (prec - 1))
    (hm : |x / 2 ^ (e - (prec - 1)) - m| < 1 / 2) :
    round_to prec emin x = m * 2 ^ (e - (prec - 1)) := by
  have hpos : (0 : ℚ) < |x| := lt_of_lt_of_le (by positivity) hlo
  have hx : x ≠ 0 := abs_pos.1 hpos
  have he := int_log_two_eq x e hlo hhi
  unfold round_to
  rw [if_neg hx, he, max_eq_left hk, round_half_even_eq _ m hm]

/-- In the normal range, rounding to `prec` bits has relative error at most
`2 ^ -prec`. -/
theorem round_to_abs_sub_le (prec : Nat) (emin : Int) (x : ℚ)
    (hx : (2 : ℚ) ^ (emin + (prec - 1)) ≤ |x|) :
    |round_to prec emin x - x| ≤ |x| / 2 ^ prec := by
  have hpos : (0 : ℚ) < |x| := lt_of_lt_of_le (by positivity) hx
  have hx0 : x ≠ 0 := abs_pos.1 hpos
  have hk : emin ≤ Int.log 2 |x| - (prec - 1) := by
    have : emin + (prec - 1) ≤ Int.log 2 |x| := by
      rw [← Int.zpow_le_iff_le_log (by norm_num) hpos]
      simpa using hx
    omega
  have hlo : (2 : ℚ) ^ Int.log 2 |x| ≤ |x| := by
    simpa using Int.zpow_log_le_self (b := 2) (r := |x|) (by norm_num) hpos
  unfold round_to
  rw [if_neg hx0, max_eq_left hk]
  set k : Int := Int.log 2 |x| - (prec - 1) with hkdef
  have hq : (0 : ℚ) < 2 ^ k := by positivity
  have herr := round_half_even_abs_sub_le (x / 2 ^ k)
  have e1 : (round_half_even (x / 2 ^ k) : ℚ) * 2 ^ k - x
      = ((round_half_even (x / 2 ^ k) : ℚ) - x / 2 ^ k) * 2 ^ k := by
    field_simp
  rw [e1, abs_mul, abs_of_pos hq]
  have e2 : (2 : ℚ) ^ k = 2 ^ Int.log 2 |x| * 2 / 2 ^ prec := by
    rw [hkdef, show Int.log 2 |x| - ((prec : Int) - 1) = Int.log 2 |x| + 1 - prec by ring,
      zpow_sub₀ (by norm_num), zpow_add₀ (by norm_num), zpow_one, zpow_natCast]
  have hp : (0 : ℚ) < 2 ^ prec := by positivity
  calc |(round_half_even (x / 2 ^ k) : ℚ) - x / 2 ^ k| * 2 ^ k
      ≤ 1 / 2 * 2 ^ k := by gcongr
    _ = 2 ^ Int.log 2 |x| / 2 ^ prec := by rw [e2]; ring
    _ ≤ |x| / 2 ^ prec := by gcongr

theorem round_to_zero (prec : Nat) (emin : Int) : round_to prec emin 0 = 0 := by
  simp [round_to]

/-- An integer below `2 ^ 24` in magnitude converts to `float` exactly. -/
theorem to_float_intCast (n : Int) (h : |n| < 2 ^ 24) : to_float (n : ℚ) = n := by
  by_cases hn : n = 0
  · subst hn
    simp [to_float, round_to]
  have hq : |(n : ℚ)| = ((|n| : Int) : ℚ) := by rw [Int.cast_abs]
  have hpos : (0 : ℚ) < |(n : ℚ)| := abs_pos.2 (by exact_mod_cast hn)
  have hlo : (2 : ℚ) ^ Int.log 2 |(n : ℚ)| ≤ |(n : ℚ)| := by
    simpa using Int.zpow_log_le_self (b := 2) (r := |(n : ℚ)|) (by norm_num) hpos
  have hhi : |(n : ℚ)| < 2 ^ (Int.log 2 |(n : ℚ)| + 1) := by
    simpa using Int.lt_zpow_succ_log_self (b := 2) (by norm_num) |(n : ℚ)|
  have he0 : 0 ≤ Int.log 2 |(n : ℚ)| := by
    rw [← Int.zpow_le_iff_le_log (by norm_num) hpos]
    have : (1 : ℚ) ≤ |(n : ℚ)| := by
      rw [hq]
      exact_mod_cast Int.one_le_abs hn
    simpa using this
  have he23 : Int.log 2 |(n : ℚ)| < 24 := by
    rw [← Int.lt_zpow_iff_log_lt (by norm_num) hpos]
    have h24 : |(n : ℚ)| < 2 ^ (24 : Nat) := by
      rw [hq]
      exact_mod_cast h
    have e24 : (((2 : Nat) : ℚ)) ^ (24 : Int) = 2 ^ (24 : Nat) := by norm_num
    rw [e24]
    exact h24
  obtain ⟨k, hk⟩ : ∃ k : Nat, (k : Int) = 23 - Int.log 2 |(n : ℚ)| :=
    ⟨(23 - Int.log 2 |(n : ℚ)|).toNat, Int.toNat_of_nonneg (by omega)⟩
  have hexp : Int.log 2 |(n : ℚ)| - (((24 : Nat) : Int) - 1) = -(k : Int) := by
    push_cast
    omega
  have hpow : (2 : ℚ) ^ (-(k : Int)) = ((2 : ℚ) ^ k)⁻¹ := by
    rw [zpow_neg, zpow_natCast]
  have h2k : (0 : ℚ) < 2 ^ k := by positivity
  unfold to_float
  rw [round_to_eq 24 (-149) n (Int.log 2 |(n : ℚ)|) (n * 2 ^ k) hlo hhi (by push_cast; omega)
    (by
      rw [hexp, hpow]
      have : (n : ℚ) / ((2 : ℚ) ^ k)⁻¹ - ((n * 2 ^ k : Int) : ℚ) = 0 := by
        push_cast
        field_simp
      rw [this]
      norm_num)]
  rw [hexp, hpow]
  push_cast
  field_simp

/-- The `double` nearest to the decimal constant `1.5625e-3`. -/
theorem to_double_current_lsb :
    to_double 1.5625e-3 = 3602879701896397 / 2305843009213693952 := by
  unfold to_double
  rw [round_to_eq 53 (-1074) 1.5625e-3 (-10) 7205759403792794
    (by rw [abs_of_pos (by norm_num)]; norm_num)
    (by rw [abs_of_pos (by norm_num)]; norm_num)
    (by norm_num)
    (by rw [abs_lt]; constructor <;> norm_num)]
  norm_num

/-- The `float` stored for the raw current `-1`. -/
theorem float_scale_current_neg_one :
    float_scale (-1) 1.5625e-3 = -13421773 / 8589934592 := by
  unfold float_scale
  rw [to_float_intCast (-1) (by norm_num), to_double_current_lsb]
  have hd : to_double (((-1 : Int) : ℚ) * (3602879701896397 / 2305843009213693952))
      = -(3602879701896397 / 2305843009213693952) := by
    unfold to_double
    rw [round_to_eq 53 (-1074) _ (-10) (-7205759403792794)
      (by rw [abs_of_neg (by norm_num)]; norm_num)
      (by rw [abs_of_neg (by norm_num)]; norm_num)
      (by norm_num)
      (by rw [abs_lt]; constructor <;> norm_num)]
    norm_num
  rw [hd]
  unfold to_float
  rw [round_to_eq 24 (-149) _ (-10) (-13421773)
    (by rw [abs_of_neg (by norm_num)]; norm_num)
    (by rw [abs_of_neg (by norm_num)]; norm_num)
    (by norm_num)
    (by rw [abs_lt]; constructor <;> norm_num)]
  norm_num

theorem to_double_abs_sub_le (x : ℚ) (hx : 1 / 2 ^ 1022 ≤ |x|) :
    |to_double x - x| ≤ |x| / 2 ^ 53 := by
  unfold to_double
  refine round_to_abs_sub_le 53 (-1074) x (le_trans ?_ hx)
  norm_num

theorem to_float_abs_sub_le (x : ℚ) (hx : 1 / 2 ^ 126 ≤ |x|) :
    |to_float x - x| ≤ |x| / 2 ^ 24 := by
  unfold to_float
  refine round_to_abs_sub_le 24 (-149) x (le_trans ?_ hx)
  norm_num

/-- The stored `float` is within relative error `2 ^ -23` of the exact product. -/
theorem float_scale_abs_sub_le (n : Int) (c : ℚ) (hn : n ≠ 0) (hn24 : |n| < 2 ^ 24)
    (hc : 1 / 2 ^ 20 ≤ c) :
    |float_scale n c - n * c| ≤ |(n : ℚ) * c| / 2 ^ 23 := by
  have hcpos : (0 : ℚ) < c := lt_of_lt_of_le (by norm_num) hc
  have hn1 : (1 : ℚ) ≤ |(n : ℚ)| := by
    rw [← Int.cast_abs]
    exact_mod_cast Int.one_le_abs hn
  have ht : c ≤ |(n : ℚ) * c| := by
    rw [abs_mul, abs_of_pos hcpos]
    exact le_mul_of_one_le_left hcpos.le hn1
  unfold float_scale
  rw [to_float_intCast n hn24]
  -- the constant
  have hC := to_double_abs_sub_le c (by
    rw [abs_of_pos hcpos]
    refine le_trans ?_ hc
    norm_num)
  rw [abs_of_pos hcpos] at hC
  set C := to_double c with hCdef
  -- the product in double
  have hP1 : |(n : ℚ) * C - n * c| ≤ |(n : ℚ) * c| / 2 ^ 53 := by
    have e : (n : ℚ) * C - n * c = n * (C - c) := by ring
    rw [e, abs_mul, abs_mul, abs_of_pos hcpos, mul_div_assoc]
    exact mul_le_mul_of_nonneg_left hC (abs_nonneg _)
  set t := |(n : ℚ) * c| with htdef
  set P := (n : ℚ) * C with hPdef
  have hP2 : |P| ≤ t + t / 2 ^ 53 := by
    have := abs_sub_abs_le_abs_sub P (n * c)
    linarith
  have hP3 : t - t / 2 ^ 53 ≤ |P| := by
    have := abs_sub_abs_le_abs_sub ((n : ℚ) * c) P
    rw [abs_sub_comm] at this
    linarith
  have hD := to_double_abs_sub_le P (by
    refine le_trans ?_ hP3
    have : (1 : ℚ) / 2 ^ 21 ≤ t - t / 2 ^ 53 := by
      norm_num at hc ⊢
      linarith
    refine le_trans ?_ this
    norm_num)
  set D := to_double P with hDdef
  have hD2 : |D| ≤ |P| + |P| / 2 ^ 53 := by
    have := abs_sub_abs_le_abs_sub D P
    linarith
  have hD3 : |P| - |P| / 2 ^ 53 ≤ |D| := by
    have := abs_sub_abs_le_abs_sub P D
    rw [abs_sub_comm] at this
    linarith
  have hF := to_float_abs_sub_le D (by
    refine le_trans ?_ hD3
    have : (1 : ℚ) / 2 ^ 22 ≤ |P| - |P| / 2 ^ 53 := by
      norm_num at hc hP3 ⊢
      linarith
    refine le_trans ?_ this
    norm_num)
  set F := to_float D with hFdef
  have tri : |F - n * c| ≤ |F - D| + |D - P| + |P - n * c| := by
    have e : F - n * c = (F - D) + (D - P) + (P - n * c) := by ring
    rw [e]
    exact abs_add_three _ _ _
  have hnn : 0 ≤ t := abs_nonneg _
  have hPnn := abs_nonneg P
  norm_num at hD hF hD2 hP1 hP2 tri ⊢
  linarith

theorem float_scale_zero (c : ℚ) : float_scale 0 c = 0 := by
  simp [float_scale, to_float, to_double, round_to]

/-! ## The telemetry getters and `bms_get_stats` -/

/-- What a getter returns in terms of the one read it makes. -/
theorem bms_get_voltage_eq (c : Collab σ) (x : ℚ) (w : World σ) (e : bms_error_t) (d : Nat)
    (s : σ) (h : c.bms_reg_read BMS_REG_VBAT 0 2 w.dev = (e, d, s)) :
    bms_get_voltage c x w
      = (e, if e = BMS_OK then float_scale (u16 d : Nat) 0.3125e-3 else x,
          ⟨s, w.trace ++ [Event.reg_read 0x00DA 2]⟩) := by
  simp only [bms_get_voltage, call_reg_read, h, ne_eq, u8_val_eq_ok_iff, of_val_u8_val]
  by_cases he : e = BMS_OK <;> simp [he, BMS_REG_VBAT]

theorem bms_get_current_eq (c : Collab σ) (x : ℚ) (w : World σ) (e : bms_error_t) (d : Nat)
    (s : σ) (h : c.bms_reg_read BMS_REG_CBAT 0 2 w.dev = (e, d, s)) :
    bms_get_current c x w
      = (e, if e = BMS_OK then float_scale (i16 d) 1.5625e-3 else x,
          ⟨s, w.trace ++ [Event.reg_read 0x001C 2]⟩) := by
  simp only [bms_get_current, call_reg_read, h, ne_eq, u8_val_eq_ok_iff, of_val_u8_val]
  by_cases he : e = BMS_OK <;> simp [he, BMS_REG_CBAT]

theorem bms_get_soc_eq (c : Collab σ) (x : ℚ) (w : World σ) (e : bms_error_t) (d : Nat)
    (s : σ) (h : c.bms_reg_read BMS_REG_REPCAP 0 2 w.dev = (e, d, s)) :
    bms_get_soc c x w
      = (e, if e = BMS_OK then float_scale (u16 d : Nat) 5e-3 else x,
          ⟨s, w.trace ++ [Event.reg_read 0x0005 2]⟩) := by
  simp only [bms_get_soc, call_reg_read, h, ne_eq, u8_val_eq_ok_iff, of_val_u8_val]
  by_cases he : e = BMS_OK <;> simp [he, BMS_REG_REPCAP]

theorem bms_get_full_capacity_eq (c : Collab σ) (x : ℚ) (w : World σ) (e : bms_error_t)
    (d : Nat) (s : σ) (h : c.bms_reg_read BMS_REG_FULLCAP 0 2 w.dev = (e, d, s)) :
    bms_get_full_capacity c x w
      = (e, if e = BMS_OK then float_scale (u16 d : Nat) 5e-3 else x,
          ⟨s, w.trace ++ [Event.reg_read 0x0035 2]⟩) := by
  simp only [bms_get_full_capacity, call_reg_read, h, ne_eq, u8_val_eq_ok_iff, of_val_u8_val]
  by_cases he : e = BMS_OK <;> simp [he, BMS_REG_FULLCAP]

/-- C8: `bms_get_stats` reads VBAT, CBAT, REPCAP, FULLCAP in that order.  Naming
the outcome of each read as it would occur in sequence, the result and the trace
are: the code of the first failing read with exactly the reads up to and
including it, or `BMS_OK` with exactly the four reads. -/
theorem get_stats_reads_in_order (c : Collab σ) (stats : bms_stats_t) (w : World σ)
    (e1 e2 e3 e4 : bms_error_t) (d1 d2 d3 d4 : Nat) (s1 s2 s3 s4 : σ)
    (h1 : c.bms_reg_read BMS_REG_VBAT 0 2 w.dev = (e1, d1, s1))
    (h2 : c.bms_reg_read BMS_REG_CBAT 0 2 s1 = (e2, d2, s2))
    (h3 : c.bms_reg_read BMS_REG_REPCAP 0 2 s2 = (e3, d3, s3))
    (h4 : c.bms_reg_read BMS_REG_FULLCAP 0 2 s3 = (e4, d4, s4)) :
    ((bms_get_stats c stats w).1, (bms_get_stats c stats w).2.2) =
      if e1 ≠ BMS_OK then
        (e1, ⟨s1, w.trace ++ [Event.reg_read 0x00DA 2]⟩)
      else if e2 ≠ BMS_OK then
        (e2, ⟨s2, w.trace ++ [Event.reg_read 0x00DA 2, Event.reg_read 0x001C 2]⟩)
      else if e3 ≠ BMS_OK then
        (e3, ⟨s3, w.trace ++ [Event.reg_read 0x00DA 2, Event.reg_read 0x001C 2,
          Event.reg_read 0x0005 2]⟩)
      else if e4 ≠ BMS_OK then
        (e4, ⟨s4, w.trace ++ [Event.reg_read 0x00DA 2, Event.reg_read 0x001C 2,
          Event.reg_read 0x0005 2, Event.reg_read 0x0035 2]⟩)
      else
        (BMS_OK, ⟨s4, w.trace ++ [Event.reg_read 0x00DA 2, Event.reg_read 0x001C 2,
          Event.reg_read 0x0005 2, Event.reg_read 0x0035 2]⟩) := by
  have g1 := bms_get_voltage_eq c stats.volts w e1 d1 s1 h1
  have g2 := fun x t => bms_get_current_eq c x ⟨s1, t⟩ e2 d2 s2 h2
  have g3 := fun x t => bms_get_soc_eq c x ⟨s2, t⟩ e3 d3 s3 h3
  have g4 := fun x t => bms_get_full_capacity_eq c x ⟨s3, t⟩ e4 d4 s4 h4
  by_cases he1 : e1 = BMS_OK
  · by_cases he2 : e2 = BMS_OK
    · by_cases he3 : e3 = BMS_OK
      · by_cases he4 : e4 = BMS_OK
        · simp [bms_get_stats, g1, g2, g3, g4, he1, he2, he3, he4, u8_val_eq_ok_iff,
            of_val_u8_val]
        · simp [bms_get_stats, g1, g2, g3, g4, he1, he2, he3, he4, u8_val_eq_ok_iff,
            of_val_u8_val]
      · simp [bms_get_stats, g1, g2, g3, he1, he2, he3, u8_val_eq_ok_iff, of_val_u8_val]
    · simp [bms_get_stats, g1, g2, he1, he2, u8_val_eq_ok_iff, of_val_u8_val]
  · simp [bms_get_stats, g1, he1, u8_val_eq_ok_iff, of_val_u8_val]

/-- Witness for C8: the voltage read fails; its code is the result and no other
read is made.  With the failure at the third read, three reads are made. -/
theorem get_stats_reads_in_order_witness :
    ((bms_get_stats (failing_bus 0 BMS_I2C_MEM_READ_ERROR 7 7 7) ⟨0, 0, 0, 0⟩ ⟨0, []⟩).1,
        (bms_get_stats (failing_bus 0 BMS_I2C_MEM_READ_ERROR 7 7 7) ⟨0, 0, 0, 0⟩ ⟨0, []⟩).2.2)
        = (BMS_I2C_MEM_READ_ERROR, ⟨1, [Event.reg_read 0x00DA 2]⟩)
      ∧ ((bms_get_stats (failing_bus 2 BMS_I2C_MEM_READ_ERROR 7 7 7) ⟨0, 0, 0, 0⟩ ⟨0, []⟩).1,
        (bms_get_stats (failing_bus 2 BMS_I2C_MEM_READ_ERROR 7 7 7) ⟨0, 0, 0, 0⟩ ⟨0, []⟩).2.2)
        = (BMS_I2C_MEM_READ_ERROR, ⟨3, [Event.reg_read 0x00DA 2, Event.reg_read 0x001C 2,
            Event.reg_read 0x0005 2]⟩) :=
  ⟨get_stats_reads_in_order (failing_bus 0 BMS_I2C_MEM_READ_ERROR 7 7 7) ⟨0, 0, 0, 0⟩ ⟨0, []⟩
      BMS_I2C_MEM_READ_ERROR BMS_OK BMS_OK BMS_OK 7 7 7 7 1 2 3 4 rfl rfl rfl rfl,
    get_stats_reads_in_order (failing_bus 2 BMS_I2C_MEM_READ_ERROR 7 7 7) ⟨0, 0, 0, 0⟩ ⟨0, []⟩
      BMS_OK BMS_OK BMS_I2C_MEM_READ_ERROR BMS_OK 7 7 7 7 1 2 3 4 rfl rfl rfl rfl⟩

/-- C9 fails as stated: on raw `0xFFFF` the current read succeeds and the value
stored is the `float` `-13421773 / 2^33`, not the exact product
`-1 * 1.5625e-3`. -/
theorem telemetry_exact_counterexample :
    (bms_get_current (fixed_bus 0 0 0xFFFF) 0 ⟨(), []⟩).1 = BMS_OK
      ∧ (bms_get_current (fixed_bus 0 0 0xFFFF) 0 ⟨(), []⟩).2.1 = -13421773 / 8589934592
      ∧ (bms_get_current (fixed_bus 0 0 0xFFFF) 0 ⟨(), []⟩).2.1 ≠ -1 * 1.5625e-3 := by
  have hget := bms_get_current_eq (fixed_bus 0 0 0xFFFF) 0 ⟨(), []⟩ BMS_OK 0xFFFF () rfl
  have hi : i16 0xFFFF = -1 := by decide
  have hval : (bms_get_current (fixed_bus 0 0 0xFFFF) 0 ⟨(), []⟩).2.1
      = -13421773 / 8589934592 := by
    rw [hget, hi, if_pos rfl]
    exact float_scale_current_neg_one
  refine ⟨by rw [hget], hval, ?_⟩
  rw [hval]
  norm_num

/-- C9 as amended: on a successful read of raw value `r` each getter returns
`BMS_OK` and stores the `float` that `(float)r * c` evaluates to: `r` unsigned
with `c = 0.3125e-3` for the voltage and `c = 5e-3` for state of charge and full
capacity, `r` read as a two's-complement 16-bit integer (the integer in
-32768..32767 congruent to `r` modulo 65536) with `c = 1.5625e-3` for the
current.  The stored value is within `|r * c| / 2^23` of the exact product; raw 0
gives 0 for every getter and raw `0xFFFF` gives `-13421773 / 2^33` as current. -/
theorem telemetry_conversion_rounded (c : Collab σ) (x : ℚ) (w : World σ) :
    (∀ r s, c.bms_reg_read BMS_REG_VBAT 0 2 w.dev = (BMS_OK, r, s) →
        (bms_get_voltage c x w).1 = BMS_OK
          ∧ (bms_get_voltage c x w).2.1 = float_scale (u16 r : Nat) 0.3125e-3
          ∧ |(bms_get_voltage c x w).2.1 - (u16 r : ℚ) * 0.3125e-3|
              ≤ (u16 r : ℚ) * 0.3125e-3 / 2 ^ 23
          ∧ (u16 r = 0 → (bms_get_voltage c x w).2.1 = 0))
      ∧ (∀ r s, c.bms_reg_read BMS_REG_CBAT 0 2 w.dev = (BMS_OK, r, s) →
        (bms_get_current c x w).1 = BMS_OK
          ∧ (bms_get_current c x w).2.1 = float_scale (i16 r) 1.5625e-3
          ∧ |(bms_get_current c x w).2.1 - (i16 r : ℚ) * 1.5625e-3|
              ≤ |(i16 r : ℚ) * 1.5625e-3| / 2 ^ 23
          ∧ (-(2 ^ 15) ≤ i16 r ∧ i16 r < 2 ^ 15 ∧ (i16 r - (u16 r : Int)) % 2 ^ 16 = 0)
          ∧ (u16 r = 0 → (bms_get_current c x w).2.1 = 0)
          ∧ (u16 r = 0xFFFF → (bms_get_current c x w).2.1 = -13421773 / 8589934592))
      ∧ (∀ r s, c.bms_reg_read BMS_REG_REPCAP 0 2 w.dev = (BMS_OK, r, s) →
        (bms_get_soc c x w).1 = BMS_OK
          ∧ (bms_get_soc c x w).2.1 = float_scale (u16 r : Nat) 5e-3
          ∧ |(bms_get_soc c x w).2.1 - (u16 r : ℚ) * 5e-3| ≤ (u16 r : ℚ) * 5e-3 / 2 ^ 23
          ∧ (u16 r = 0 → (bms_get_soc c x w).2.1 = 0))
      ∧ (∀ r s, c.bms_reg_read BMS_REG_FULLCAP 0 2 w.dev = (BMS_OK, r, s) →
        (bms_get_full_capacity c x w).1 = BMS_OK
          ∧ (bms_get_full_capacity c x w).2.1 = float_scale (u16 r : Nat) 5e-3
          ∧ |(bms_get_full_capacity c x w).2.1 - (u16 r : ℚ) * 5e-3|
              ≤ (u16 r : ℚ) * 5e-3 / 2 ^ 23
          ∧ (u16 r = 0 → (bms_get_full_capacity c x w).2.1 = 0)) := by
  have hu : ∀ r : Nat, u16 r < 2 ^ 16 := fun r => Nat.mod_lt _ (by norm_num)
  have unsigned : ∀ (r : Nat) (k : ℚ), 1 / 2 ^ 20 ≤ k →
      |float_scale (u16 r : Nat) k - (u16 r : ℚ) * k| ≤ (u16 r : ℚ) * k / 2 ^ 23
        ∧ (u16 r = 0 → float_scale (u16 r : Nat) k = 0) := by
    intro r k hk
    have hkpos : (0 : ℚ) < k := lt_of_lt_of_le (by norm_num) hk
    have h0 : u16 r = 0 → float_scale (u16 r : Nat) k = 0 := by
      intro h
      rw [h]
      exact float_scale_zero k
    refine ⟨?_, h0⟩
    by_cases hr : u16 r = 0
    · rw [h0 hr, hr]
      simp
    · have hb := float_scale_abs_sub_le (u16 r : Nat) k (by exact_mod_cast hr)
        (by
          have := hu r
          rw [abs_of_nonneg (by positivity)]
          norm_num at this ⊢
          omega) hk
      have hnn : (0 : ℚ) ≤ ((u16 r : Nat) : Int) * k := by positivity
      rw [abs_of_nonneg hnn] at hb
      exact_mod_cast hb
  have hrange : ∀ r : Nat,
      -(2 ^ 15) ≤ i16 r ∧ i16 r < 2 ^ 15 ∧ (i16 r - (u16 r : Int)) % 2 ^ 16 = 0 := by
    intro r
    have hlt := hu r
    simp only [i16, u16] at hlt ⊢
    split_ifs with hlo <;> norm_num at hlo hlt ⊢ <;> omega
  refine ⟨?_, ?_, ?_, ?_⟩
  · intro r s h
    rw [bms_get_voltage_eq c x w _ _ _ h]
    obtain ⟨hb, h0⟩ := unsigned r 0.3125e-3 (by norm_num)
    exact ⟨rfl, by simp, by simpa using hb, by simpa using h0⟩
  · intro r s h
    rw [bms_get_current_eq c x w _ _ _ h]
    obtain ⟨hlo, hhi, hmod⟩ := hrange r
    have hzero : u16 r = 0 → i16 r = 0 := by
      intro h0
      simp only [i16, u16] at h0 ⊢
      rw [h0]
      norm_num
    have hff : u16 r = 0xFFFF → i16 r = -1 := by
      intro h0
      simp only [i16, u16] at h0 ⊢
      rw [h0]
      norm_num
    refine ⟨rfl, by simp, ?_, ⟨hlo, hhi, hmod⟩, ?_, ?_⟩
    · simp only [if_true]
      by_cases hi : i16 r = 0
      · rw [hi]
        simp [float_scale_zero]
      · exact float_scale_abs_sub_le (i16 r) 1.5625e-3 hi
          (by rw [abs_lt]; constructor <;> omega) (by norm_num)
    · intro h0
      simp [hzero h0, float_scale_zero]
    · intro h0
      simp only [if_true]
      rw [hff h0]
      exact float_scale_current_neg_one
  · intro r s h
    rw [bms_get_soc_eq c x w _ _ _ h]
    obtain ⟨hb, h0⟩ := unsigned r 5e-3 (by norm_num)
    exact ⟨rfl, by simp, by simpa using hb, by simpa using h0⟩
  · intro r s h
    rw [bms_get_full_capacity_eq c x w _ _ _ h]
    obtain ⟨hb, h0⟩ := unsigned r 5e-3 (by norm_num)
    exact ⟨rfl, by simp, by simpa using hb, by simpa using h0⟩

/-- Witness for C9 as amended: a transport that returns raw `0xFFFF`; the current
stored is `-13421773 / 2^33` and the voltage is `(float)65535 * 0.3125e-3`; a
transport that returns raw 0 gives the state of charge 0. -/
theorem telemetry_conversion_rounded_witness :
    (bms_get_current (fixed_bus 0 0 0xFFFF) 0 ⟨(), []⟩).2.1 = -13421773 / 8589934592
      ∧ (bms_get_voltage (fixed_bus 0 0 0xFFFF) 0 ⟨(), []⟩).2.1
          = float_scale (u16 0xFFFF : Nat) 0.3125e-3
      ∧ (bms_get_soc (fixed_bus 0 0 0) 42 ⟨(), []⟩).2.1 = 0 :=
  ⟨((telemetry_conversion_rounded (fixed_bus 0 0 0xFFFF) 0 ⟨(), []⟩).2.1
      0xFFFF () rfl).2.2.2.2.2 rfl,
    ((telemetry_conversion_rounded (fixed_bus 0 0 0xFFFF) 0 ⟨(), []⟩).1
      0xFFFF () rfl).2.1,
    ((telemetry_conversion_rounded (fixed_bus 0 0 0) 42 ⟨(), []⟩).2.2.1
      0 () rfl).2.2.2 rfl⟩

/-- C10: a read that is reached and fails with code `e` ends the routine with
exactly `e`; the trace ends with that read, so no later read and no reset is
made.  This holds for each of the three reads of `bms_bat_okay` and for the
single read of each telemetry getter. -/
theorem read_failure_propagates (c : Collab σ) (full_reset : σ → bms_error_t × σ)
    (blacklist : List Nat) (x : ℚ) (w : World σ) (e : bms_error_t) (he : e ≠ BMS_OK) :
    (∀ d s, c.bms_reg_read BMS_REG_NBATTSTATUS 0 2 w.dev = (e, d, s) →
        bms_bat_okay_with c full_reset blacklist w
          = (e, ⟨s, w.trace ++ [Event.reg_read 0x01A8 2]⟩))
      ∧ (∀ v1 s1 d s, c.bms_reg_read BMS_REG_NBATTSTATUS 0 2 w.dev = (BMS_OK, v1, s1) →
          u16 v1 &&& 0x8000 = 0 →
          c.bms_reg_read BMS_REG_STATUS (u16 v1) 2 s1 = (e, d, s) →
        bms_bat_okay_with c full_reset blacklist w
          = (e, ⟨s, w.trace ++ [Event.reg_read 0x01A8 2, Event.reg_read 0x0000 2]⟩))
      ∧ (∀ v1 s1 v2 s2 d s, c.bms_reg_read BMS_REG_NBATTSTATUS 0 2 w.dev = (BMS_OK, v1, s1) →
          u16 v1 &&& 0x8000 = 0 →
          c.bms_reg_read BMS_REG_STATUS (u16 v1) 2 s1 = (BMS_OK, v2, s2) →
          u16 v2 &&& 0x8000 ≠ 0 →
          c.bms_reg_read BMS_REG_PROTALRT (u16 v2) 2 s2 = (e, d, s) →
        bms_bat_okay_with c full_reset blacklist w
          = (e, ⟨s, w.trace ++ [Event.reg_read 0x01A8 2, Event.reg_read 0x0000 2,
              Event.reg_read 0x00AF 2]⟩))
      ∧ (∀ d s, c.bms_reg_read BMS_REG_VBAT 0 2 w.dev = (e, d, s) →
        bms_get_voltage c x w = (e, x, ⟨s, w.trace ++ [Event.reg_read 0x00DA 2]⟩))
      ∧ (∀ d s, c.bms_reg_read BMS_REG_CBAT 0 2 w.dev = (e, d, s) →
        bms_get_current c x w = (e, x, ⟨s, w.trace ++ [Event.reg_read 0x001C 2]⟩))
      ∧ (∀ d s, c.bms_reg_read BMS_REG_REPCAP 0 2 w.dev = (e, d, s) →
        bms_get_soc c x w = (e, x, ⟨s, w.trace ++ [Event.reg_read 0x0005 2]⟩))
      ∧ (∀ d s, c.bms_reg_read BMS_REG_FULLCAP 0 2 w.dev = (e, d, s) →
        bms_get_full_capacity c x w = (e, x, ⟨s, w.trace ++ [Event.reg_read 0x0035 2]⟩)) := by
  refine ⟨?_, ?_, ?_, ?_, ?_, ?_, ?_⟩
  · intro d s h1
    simp only [bms_bat_okay_with, call_reg_read, h1, ne_eq, u8_val_eq_ok_iff, of_val_u8_val]
    simp [he, BMS_REG_NBATTSTATUS]
  · intro v1 s1 d s h1 hpf h2
    simp only [bms_bat_okay_with, call_reg_read, h1, h2, ne_eq, u8_val_eq_ok_iff,
      of_val_u8_val, BMS_BIT_PERMFAIL, hpf]
    simp [he, BMS_REG_NBATTSTATUS, BMS_REG_STATUS]
  · intro v1 s1 v2 s2 d s h1 hpf h2 hpa h3
    simp only [bms_bat_okay_with, call_reg_read, h1, h2, h3, ne_eq, u8_val_eq_ok_iff,
      of_val_u8_val, BMS_BIT_PERMFAIL, BMS_BIT_PROTALRT, hpf]
    simp [he, hpa, BMS_REG_NBATTSTATUS, BMS_REG_STATUS, BMS_REG_PROTALRT]
  · intro d s h
    rw [bms_get_voltage_eq c x w e d s h, if_neg he]
  · intro d s h
    rw [bms_get_current_eq c x w e d s h, if_neg he]
  · intro d s h
    rw [bms_get_soc_eq c x w e d s h, if_neg he]
  · intro d s h
    rw [bms_get_full_capacity_eq c x w e d s h, if_neg he]

/-- Witness for C10: with the `__weak` default transport the first read of
`bms_bat_okay` fails with `BMS_I2C_MEM_READ_ERROR`, which is returned after that
one read; with a transport failing at the third transaction, `bms_bat_okay`
returns that failure after three reads; `bms_get_voltage` on the default
transport returns the read error and leaves its output alone. -/
theorem read_failure_propagates_witness :
    bms_bat_okay weak_default ⟨(), []⟩
        = (BMS_I2C_MEM_READ_ERROR, ⟨(), [Event.reg_read 0x01A8 2]⟩)
      ∧ bms_bat_okay (failing_bus 2 BMS_I2C_MEM_READ_ERROR 0x0000 0x8000 0x0010) ⟨0, []⟩
        = (BMS_I2C_MEM_READ_ERROR, ⟨3, [Event.reg_read 0x01A8 2, Event.reg_read 0x0000 2,
            Event.reg_read 0x00AF 2]⟩)
      ∧ bms_get_voltage weak_default 42 ⟨(), []⟩
        = (BMS_I2C_MEM_READ_ERROR, 42, ⟨(), [Event.reg_read 0x00DA 2]⟩) :=
  ⟨(read_failure_propagates weak_default bms_full_reset bms_revive_blacklist 0 ⟨(), []⟩
      BMS_I2C_MEM_READ_ERROR (by decide)).1 0 () rfl,
    (read_failure_propagates (failing_bus 2 BMS_I2C_MEM_READ_ERROR 0x0000 0x8000 0x0010) bms_full_reset
      bms_revive_blacklist 0 ⟨0, []⟩ BMS_I2C_MEM_READ_ERROR (by decide)).2.2.1
      0x0000 1 0x8000 2 0x0010 3 rfl (by decide) rfl (by decide) rfl,
    (read_failure_propagates weak_default bms_full_reset bms_revive_blacklist 42 ⟨(), []⟩
      BMS_I2C_MEM_READ_ERROR (by decide)).2.2.2.1 0 () rfl⟩

/-! ## `bms_get_nv_writes_remaining`: protocol and the unassigned output -/

/-- C11: when every transport step succeeds, `bms_get_nv_writes_remaining`
returns `BMS_OK` and the collaborator calls it makes are, in order: write
`0x0000` to COMMSTAT `0x0061` twice, write `0xE29B` to CMDREG `0x0060`, a delay
of 10 ms, a 2-byte read of `0x01FD`, write `0x00F9` to COMMSTAT twice.  Each
write is a 2-byte write, and both pairs consist of two separate calls. -/
theorem nv_protocol_sequence (c : Collab σ) (count : Nat) (w : World σ) (d : Nat)
    (s1 s2 s3 s5 s6 s7 : σ)
    (h1 : c.bms_reg_write BMS_REG_COMMSTAT 0x0000 2 w.dev = (BMS_OK, s1))
    (h2 : c.bms_reg_write BMS_REG_COMMSTAT 0x0000 2 s1 = (BMS_OK, s2))
    (h3 : c.bms_reg_write BMS_REG_CMDREG 0xE29B 2 s2 = (BMS_OK, s3))
    (h5 : c.bms_reg_read 0x01FD 0xE29B 2 (c.bms_delay 10 s3) = (BMS_OK, d, s5))
    (h6 : c.bms_reg_write BMS_REG_COMMSTAT 0x00F9 2 s5 = (BMS_OK, s6))
    (h7 : c.bms_reg_write BMS_REG_COMMSTAT 0x00F9 2 s6 = (BMS_OK, s7)) :
    (bms_get_nv_writes_remaining c count w).1 = BMS_OK
      ∧ (bms_get_nv_writes_remaining c count w).2.2.dev = s7
      ∧ (bms_get_nv_writes_remaining c count w).2.2.trace
        = w.trace ++ [Event.reg_write 0x0061 0x0000 2, Event.reg_write 0x0061 0x0000 2,
            Event.reg_write 0x0060 0xE29B 2, Event.delay 10, Event.reg_read 0x01FD 2,
            Event.reg_write 0x0061 0x00F9 2, Event.reg_write 0x0061 0x00F9 2] := by
  rw [nv_writes_remaining_all_ok c count w d s1 s2 s3 s5 s6 s7 h1 h2 h3 h5 h6 h7]
  exact ⟨rfl, rfl, rfl⟩

/-- Witness for C11: a transport on which every transaction succeeds. -/
theorem nv_protocol_sequence_witness :
    (bms_get_nv_writes_remaining (fixed_bus 0 0 0x1000) 0 ⟨(), []⟩).1 = BMS_OK
      ∧ (bms_get_nv_writes_remaining (fixed_bus 0 0 0x1000) 0 ⟨(), []⟩).2.2.trace
        = [Event.reg_write 0x0061 0x0000 2, Event.reg_write 0x0061 0x0000 2,
            Event.reg_write 0x0060 0xE29B 2, Event.delay 10, Event.reg_read 0x01FD 2,
            Event.reg_write 0x0061 0x00F9 2, Event.reg_write 0x0061 0x00F9 2] :=
  ⟨(nv_protocol_sequence (fixed_bus 0 0 0x1000) 0 ⟨(), []⟩ 0x1000 () () () () () ()
      rfl rfl rfl rfl rfl rfl).1,
    (nv_protocol_sequence (fixed_bus 0 0 0x1000) 0 ⟨(), []⟩ 0x1000 () () () () () ()
      rfl rfl rfl rfl rfl rfl).2.2⟩

/-- A value that misses the mask `0xFF00` has bits 15..8 clear. -/
theorem top_byte_clear_of_land (v : Nat) (h : v &&& 0xFF00 = 0) (k : Nat) (h8 : 8 ≤ k)
    (h15 : k ≤ 15) : v.testBit k = false := by
  have hk : (v &&& 0xFF00).testBit k = false := by rw [h, Nat.zero_testBit]
  rw [Nat.testBit_and] at hk
  have hm : Nat.testBit 0xFF00 k = true := by
    interval_cases k <;> decide
  rw [hm, Bool.and_true] at hk
  exact hk

/-- With no bit set in the top byte the scan leaves `*count` as it was. -/
theorem nv_scan_no_top_bit (v count : Nat) (h : v &&& 0xFF00 = 0) :
    nv_scan v count 8 0 = count := by
  have hk := top_byte_clear_of_land v h
  rw [nv_scan_unrolled]
  simp [hk 15 (by norm_num) (by norm_num), hk 14 (by norm_num) (by norm_num),
    hk 13 (by norm_num) (by norm_num), hk 12 (by norm_num) (by norm_num),
    hk 11 (by norm_num) (by norm_num), hk 10 (by norm_num) (by norm_num),
    hk 9 (by norm_num) (by norm_num), hk 8 (by norm_num) (by norm_num)]

/-- C12: when all transport steps succeed and the 16-bit value `v` read from
`0x01FD` has `(v & 0xFF00) == 0`, the function returns `BMS_OK`, `*count` keeps
its prior content `count` (it is never assigned), and the two re-lock writes are
still made. -/
theorem nv_count_untouched (c : Collab σ) (count : Nat) (w : World σ) (d : Nat)
    (s1 s2 s3 s5 s6 s7 : σ)
    (h1 : c.bms_reg_write BMS_REG_COMMSTAT 0x0000 2 w.dev = (BMS_OK, s1))
    (h2 : c.bms_reg_write BMS_REG_COMMSTAT 0x0000 2 s1 = (BMS_OK, s2))
    (h3 : c.bms_reg_write BMS_REG_CMDREG 0xE29B 2 s2 = (BMS_OK, s3))
    (h5 : c.bms_reg_read 0x01FD 0xE29B 2 (c.bms_delay 10 s3) = (BMS_OK, d, s5))
    (h6 : c.bms_reg_write BMS_REG_COMMSTAT 0x00F9 2 s5 = (BMS_OK, s6))
    (h7 : c.bms_reg_write BMS_REG_COMMSTAT 0x00F9 2 s6 = (BMS_OK, s7))
    (hb : u16 d &&& 0xFF00 = 0) :
    bms_get_nv_writes_remaining c count w
      = (BMS_OK, count,
          ⟨s7, w.trace ++ [Event.reg_write 0x0061 0x0000 2, Event.reg_write 0x0061 0x0000 2,
            Event.reg_write 0x0060 0xE29B 2, Event.delay 10, Event.reg_read 0x01FD 2,
            Event.reg_write 0x0061 0x00F9 2, Event.reg_write 0x0061 0x00F9 2]⟩) := by
  rw [nv_writes_remaining_all_ok c count w d s1 s2 s3 s5 s6 s7 h1 h2 h3 h5 h6 h7,
    nv_scan_no_top_bit (u16 d) count hb]

/-- Witness for C12: the value `0x00FF` (top byte empty) with `*count` holding 99
before the call; it still holds 99 afterwards. -/
theorem nv_count_untouched_witness :
    bms_get_nv_writes_remaining (fixed_bus 0 0 0x00FF) 99 ⟨(), []⟩
      = (BMS_OK, 99,
          ⟨(), [Event.reg_write 0x0061 0x0000 2, Event.reg_write 0x0061 0x0000 2,
            Event.reg_write 0x0060 0xE29B 2, Event.delay 10, Event.reg_read 0x01FD 2,
            Event.reg_write 0x0061 0x00F9 2, Event.reg_write 0x0061 0x00F9 2]⟩) :=
  nv_count_untouched (fixed_bus 0 0 0x00FF) 99 ⟨(), []⟩ 0x00FF () () () () () ()
    rfl rfl rfl rfl rfl rfl (by decide)

/-! ## `bms_bat_okay`: the blacklist as a set, and the whole decision -/

theorem lor_eq_zero_iff (x y : Nat) : x ||| y = 0 ↔ x = 0 ∧ y = 0 := by
  constructor
  · intro h
    have hb : ∀ i, x.testBit i = false ∧ y.testBit i = false := by
      intro i
      have hi := congrArg (fun n => Nat.testBit n i) h
      simpa [Nat.testBit_or] using hi
    exact ⟨Nat.eq_of_testBit_eq (fun i => by simp [(hb i).1]),
      Nat.eq_of_testBit_eq (fun i => by simp [(hb i).2])⟩
  · rintro ⟨rfl, rfl⟩
    rfl

/-- The scan of a list depends only on which masks occur in it. -/
theorem blacklist_hit_perm (data : Nat) (l l2 : List Nat) (h : l.Perm l2) :
    blacklist_hit data l = blacklist_hit data l2 := by
  rw [Bool.eq_iff_iff, blacklist_hit_eq_true_iff, blacklist_hit_eq_true_iff]
  constructor
  · rintro ⟨m, hm, hne⟩
    exact ⟨m, h.mem_iff.1 hm, hne⟩
  · rintro ⟨m, hm, hne⟩
    exact ⟨m, h.mem_iff.2 hm, hne⟩

/-- On the array of `bms.c` the scan is the single test against `0x09C0`. -/
theorem blacklist_hit_revive_iff (v : Nat) :
    blacklist_hit v bms_revive_blacklist = true ↔ v &&& 0x09C0 ≠ 0 := by
  have hmask : (0x09C0 : Nat) = 0x0800 ||| (0x0080 ||| (0x0100 ||| 0x0040)) := by decide
  rw [hmask, Nat.and_or_distrib_left, Nat.and_or_distrib_left, Nat.and_or_distrib_left,
    Ne, lor_eq_zero_iff, lor_eq_zero_iff, lor_eq_zero_iff, blacklist_hit_eq_true_iff]
  simp only [bms_revive_blacklist, BMS_BIT_OVP, BMS_BIT_IMBALANCE, BMS_BIT_PREQF,
    BMS_BIT_PMFAIL, List.mem_cons, List.mem_singleton, List.not_mem_nil, or_false]
  constructor
  · rintro ⟨m, hm, hne⟩ ⟨h1, h2, h3, h4⟩
    rcases hm with rfl | rfl | rfl | rfl
    · exact hne h1
    · exact hne h2
    · exact hne h3
    · exact hne h4
  · intro hno
    by_contra hall
    apply hno
    refine ⟨?_, ?_, ?_, ?_⟩ <;> by_contra hne
    · exact hall ⟨_, Or.inl rfl, hne⟩
    · exact hall ⟨_, Or.inr (Or.inl rfl), hne⟩
    · exact hall ⟨_, Or.inr (Or.inr (Or.inl rfl)), hne⟩
    · exact hall ⟨_, Or.inr (Or.inr (Or.inr rfl)), hne⟩

/-- The whole of `bms_bat_okay`, in terms of the outcome of each read and of the
reset as they would occur in sequence. -/
theorem bms_bat_okay_with_eq (c : Collab σ) (full_reset : σ → bms_error_t × σ)
    (blacklist : List Nat) (w : World σ) (e1 e2 e3 e4 : bms_error_t) (v1 v2 v3 : Nat)
    (s1 s2 s3 s4 : σ)
    (h1 : c.bms_reg_read BMS_REG_NBATTSTATUS 0 2 w.dev = (e1, v1, s1))
    (h2 : c.bms_reg_read BMS_REG_STATUS (u16 v1) 2 s1 = (e2, v2, s2))
    (h3 : c.bms_reg_read BMS_REG_PROTALRT (u16 v2) 2 s2 = (e3, v3, s3))
    (h4 : full_reset s3 = (e4, s4)) :
    bms_bat_okay_with c full_reset blacklist w =
      if e1 ≠ BMS_OK then (e1, ⟨s1, w.trace ++ [Event.reg_read 0x01A8 2]⟩)
      else if u16 v1 &&& 0x8000 ≠ 0 then
        (BMS_PERM_FAIL_ERROR, ⟨s1, w.trace ++ [Event.reg_read 0x01A8 2]⟩)
      else if e2 ≠ BMS_OK then
        (e2, ⟨s2, w.trace ++ [Event.reg_read 0x01A8 2, Event.reg_read 0x0000 2]⟩)
      else if u16 v2 &&& 0x8000 = 0 then
        (BMS_OK, ⟨s2, w.trace ++ [Event.reg_read 0x01A8 2, Event.reg_read 0x0000 2]⟩)
      else if e3 ≠ BMS_OK then
        (e3, ⟨s3, w.trace ++ [Event.reg_read 0x01A8 2, Event.reg_read 0x0000 2,
          Event.reg_read 0x00AF 2]⟩)
      else if blacklist_hit (u16 v3) blacklist = true then
        (BMS_CANNOT_REC_ERROR, ⟨s3, w.trace ++ [Event.reg_read 0x01A8 2,
          Event.reg_read 0x0000 2, Event.reg_read 0x00AF 2]⟩)
      else
        (e4, ⟨s4, w.trace ++ [Event.reg_read 0x01A8 2, Event.reg_read 0x0000 2,
          Event.reg_read 0x00AF 2, Event.full_reset]⟩) := by
  simp only [bms_bat_okay_with, call_reg_read, call_full_reset, h1, ne_eq, u8_val_eq_ok_iff,
    of_val_u8_val, BMS_BIT_PERMFAIL, BMS_BIT_PROTALRT, BMS_CANNOT_REC]
  by_cases he1 : e1 = BMS_OK
  swap
  · simp [he1, BMS_REG_NBATTSTATUS]
  by_cases hpf : u16 v1 &&& 0x8000 = 0
  swap
  · simp [he1, hpf, BMS_REG_NBATTSTATUS]
  simp only [he1, hpf, h2, not_true_eq_false, if_false]
  by_cases he2 : e2 = BMS_OK
  swap
  · simp [he2, BMS_REG_NBATTSTATUS, BMS_REG_STATUS]
  by_cases hpa : u16 v2 &&& 0x8000 = 0
  · simp [he2, hpa, BMS_REG_NBATTSTATUS, BMS_REG_STATUS]
  simp only [he2, hpa, h3, not_true_eq_false, not_false_eq_true, if_false, if_true]
  by_cases he3 : e3 = BMS_OK
  swap
  · simp [he3, BMS_REG_NBATTSTATUS, BMS_REG_STATUS, BMS_REG_PROTALRT]
  by_cases hbl : blacklist_hit (u16 v3) blacklist = true
  · simp [he3, hbl, BMS_REG_NBATTSTATUS, BMS_REG_STATUS, BMS_REG_PROTALRT]
  simp only [he3, hbl, h4, not_true_eq_false, if_false]
  by_cases he4 : e4 = BMS_OK
  · simp [he4, BMS_REG_NBATTSTATUS, BMS_REG_STATUS, BMS_REG_PROTALRT]
  · simp [he4, BMS_REG_NBATTSTATUS, BMS_REG_STATUS, BMS_REG_PROTALRT]

/-- C13: the blacklist test depends only on which masks are in the array.  For
every value `v` and every permutation `l` of `bms_revive_blacklist` the scan
with early exit reports a match iff `(v & 0x09C0) != 0`, and `bms_bat_okay` run
with the array in the order `l` gives the same result as with the order of
`bms.c`. -/
theorem blacklist_order_independent (c : Collab σ) (full_reset : σ → bms_error_t × σ)
    (w : World σ) (l : List Nat) (hperm : l.Perm bms_revive_blacklist) :
    (∀ v, blacklist_hit v l = true ↔ v &&& 0x09C0 ≠ 0)
      ∧ bms_bat_okay_with c full_reset l w
        = bms_bat_okay_with c full_reset bms_revive_blacklist w
      ∧ bms_bat_okay_with c bms_full_reset l w = bms_bat_okay c w := by
  have hfun : ∀ v, blacklist_hit v l = blacklist_hit v bms_revive_blacklist :=
    fun v => blacklist_hit_perm v l bms_revive_blacklist hperm
  have key : ∀ (f : σ → bms_error_t × σ),
      bms_bat_okay_with c f l w = bms_bat_okay_with c f bms_revive_blacklist w := by
    intro f
    simp only [bms_bat_okay_with, hfun]
  refine ⟨?_, key _, key _⟩
  intro v
  rw [hfun v, blacklist_hit_revive_iff]

/-- Witness for C13: the array in reverse order, on a run that reaches the
blacklist test with the historic value `0x0040` (PMFAIL, the last mask of the
original order and the first of the reversed one). -/
theorem blacklist_order_independent_witness :
    (∀ v, blacklist_hit v [0x0040, 0x0100, 0x0080, 0x0800] = true ↔ v &&& 0x09C0 ≠ 0)
      ∧ bms_bat_okay_with (fixed_bus 0x0000 0x8000 0x0040) bms_full_reset
          [0x0040, 0x0100, 0x0080, 0x0800] ⟨(), []⟩
        = bms_bat_okay (fixed_bus 0x0000 0x8000 0x0040) ⟨(), []⟩ :=
  ⟨(blacklist_order_independent (fixed_bus 0x0000 0x8000 0x0040) bms_full_reset ⟨(), []⟩
      [0x0040, 0x0100, 0x0080, 0x0800] (by decide)).1,
    (blacklist_order_independent (fixed_bus 0x0000 0x8000 0x0040) bms_full_reset ⟨(), []⟩
      [0x0040, 0x0100, 0x0080, 0x0800] (by decide)).2.2⟩

/-- C14: with `bms_full_reset` as defined in `bms.c` (always `BMS_RESET_ERROR`),
`bms_bat_okay` returns `BMS_OK` iff the nBattStatus read succeeds with bit
`0x8000` clear and the status read succeeds with bit `0x8000` clear.  When the
status read shows the protection-alert bit the result is not `BMS_OK`, and when
moreover the historic value read meets no blacklist mask the result is
`BMS_RESET_ERROR`, after the three reads and one reset call. -/
theorem bat_okay_ok_iff (c : Collab σ) (w : World σ) (e1 e2 e3 : bms_error_t)
    (v1 v2 v3 : Nat) (s1 s2 s3 : σ)
    (h1 : c.bms_reg_read BMS_REG_NBATTSTATUS 0 2 w.dev = (e1, v1, s1))
    (h2 : c.bms_reg_read BMS_REG_STATUS (u16 v1) 2 s1 = (e2, v2, s2))
    (h3 : c.bms_reg_read BMS_REG_PROTALRT (u16 v2) 2 s2 = (e3, v3, s3)) :
    ((bms_bat_okay c w).1 = BMS_OK ↔
        (e1 = BMS_OK ∧ u16 v1 &&& 0x8000 = 0 ∧ e2 = BMS_OK ∧ u16 v2 &&& 0x8000 = 0))
      ∧ (e1 = BMS_OK → u16 v1 &&& 0x8000 = 0 → e2 = BMS_OK → u16 v2 &&& 0x8000 ≠ 0 →
          (bms_bat_okay c w).1 ≠ BMS_OK)
      ∧ (e1 = BMS_OK → u16 v1 &&& 0x8000 = 0 → e2 = BMS_OK → u16 v2 &&& 0x8000 ≠ 0 →
          e3 = BMS_OK → (∀ m ∈ bms_revive_blacklist, u16 v3 &&& m = 0) →
          bms_bat_okay c w
            = (BMS_RESET_ERROR, ⟨s3, w.trace ++ [Event.reg_read 0x01A8 2,
                Event.reg_read 0x0000 2, Event.reg_read 0x00AF 2, Event.full_reset]⟩)) := by
  have heq := bms_bat_okay_with_eq c bms_full_reset bms_revive_blacklist w e1 e2 e3
    BMS_RESET_ERROR v1 v2 v3 s1 s2 s3 s3 h1 h2 h3 rfl
  rw [bms_bat_okay, heq]
  refine ⟨?_, ?_, ?_⟩
  · by_cases he1 : e1 = BMS_OK
    swap
    · simp [he1]
    by_cases hpf : u16 v1 &&& 0x8000 = 0
    swap
    · simp [he1, hpf]
    by_cases he2 : e2 = BMS_OK
    swap
    · simp [he1, hpf, he2]
    by_cases hpa : u16 v2 &&& 0x8000 = 0
    · simp [he1, hpf, he2, hpa]
    by_cases he3 : e3 = BMS_OK
    swap
    · simp [he1, hpf, he2, hpa, he3]
    by_cases hbl : blacklist_hit (u16 v3) bms_revive_blacklist = true
    · simp [he1, hpf, he2, hpa, he3, hbl]
    · simp [he1, hpf, he2, hpa, he3, hbl]
  · intro he1 hpf he2 hpa
    by_cases he3 : e3 = BMS_OK
    swap
    · simp [he1, hpf, he2, hpa, he3]
    by_cases hbl : blacklist_hit (u16 v3) bms_revive_blacklist = true
    · simp [he1, hpf, he2, hpa, he3, hbl]
    · simp [he1, hpf, he2, hpa, he3, hbl]
  · intro he1 hpf he2 hpa he3 hmiss
    have hbl := (blacklist_hit_eq_false_iff (u16 v3) bms_revive_blacklist).2 hmiss
    simp [he1, hpf, he2, hpa, he3, hbl]

/-- Witness for C14: extended status `0x0000`, status `0x8000`, historic alert
`0x0010` (TOOHOTD, not blacklisted): the result is `BMS_RESET_ERROR`. -/
theorem bat_okay_ok_iff_witness :
    bms_bat_okay (fixed_bus 0x0000 0x8000 0x0010) ⟨(), []⟩
      = (BMS_RESET_ERROR, ⟨(), [Event.reg_read 0x01A8 2, Event.reg_read 0x0000 2,
          Event.reg_read 0x00AF 2, Event.full_reset]⟩) :=
  (bat_okay_ok_iff (fixed_bus 0x0000 0x8000 0x0010) ⟨(), []⟩ BMS_OK BMS_OK BMS_OK
    0x0000 0x8000 0x0010 () () () rfl rfl rfl).2.2 rfl (by decide) rfl (by decide) rfl
    (by decide)

/-- C15: `bms_bat_okay` only reads.  The calls `t` it adds to the trace contain no
register write and no delay; its register reads are a prefix of the sequence
nBattStatus `0x01A8`, status `0x0000`, PROTALRT `0x00AF` (2 bytes each), so there
are at most three; and PROTALRT is read only when the nBattStatus read succeeded
with the permanent-fail bit clear and the status read succeeded with the
protection-alert bit set. -/
theorem bat_okay_reads_only (c : Collab σ) (w : World σ) (e1 e2 e3 : bms_error_t)
    (v1 v2 v3 : Nat) (s1 s2 s3 : σ)
    (h1 : c.bms_reg_read BMS_REG_NBATTSTATUS 0 2 w.dev = (e1, v1, s1))
    (h2 : c.bms_reg_read BMS_REG_STATUS (u16 v1) 2 s1 = (e2, v2, s2))
    (h3 : c.bms_reg_read BMS_REG_PROTALRT (u16 v2) 2 s2 = (e3, v3, s3)) :
    ∃ t, (bms_bat_okay c w).2.trace = w.trace ++ t
      ∧ (∀ ev ∈ t, (∀ reg value len, ev ≠ Event.reg_write reg value len)
          ∧ (∀ msecs, ev ≠ Event.delay msecs))
      ∧ t.filter Event.is_reg_read
          <+: [Event.reg_read 0x01A8 2, Event.reg_read 0x0000 2, Event.reg_read 0x00AF 2]
      ∧ (t.filter Event.is_reg_read).length ≤ 3
      ∧ (Event.reg_read 0x00AF 2 ∈ t →
          e1 = BMS_OK ∧ u16 v1 &&& 0x8000 = 0 ∧ e2 = BMS_OK ∧ u16 v2 &&& 0x8000 ≠ 0
            ∧ t.take 2 = [Event.reg_read 0x01A8 2, Event.reg_read 0x0000 2]) := by
  have heq := bms_bat_okay_with_eq c bms_full_reset bms_revive_blacklist w e1 e2 e3
    BMS_RESET_ERROR v1 v2 v3 s1 s2 s3 s3 h1 h2 h3 rfl
  rw [bms_bat_okay, heq]
  by_cases he1 : e1 = BMS_OK
  swap
  · exact ⟨[Event.reg_read 0x01A8 2], by simp [he1], by simp, by simp [Event.is_reg_read],
      by simp [Event.is_reg_read], by simp⟩
  by_cases hpf : u16 v1 &&& 0x8000 = 0
  swap
  · exact ⟨[Event.reg_read 0x01A8 2], by simp [he1, hpf], by simp,
      by simp [Event.is_reg_read], by simp [Event.is_reg_read], by simp⟩
  by_cases he2 : e2 = BMS_OK
  swap
  · exact ⟨[Event.reg_read 0x01A8 2, Event.reg_read 0x0000 2], by simp [he1, hpf, he2],
      by simp, by simp [Event.is_reg_read], by simp [Event.is_reg_read], by simp⟩
  by_cases hpa : u16 v2 &&& 0x8000 = 0
  · exact ⟨[Event.reg_read 0x01A8 2, Event.reg_read 0x0000 2], by simp [he1, hpf, he2, hpa],
      by simp, by simp [Event.is_reg_read], by simp [Event.is_reg_read], by simp⟩
  by_cases he3 : e3 = BMS_OK
  swap
  · exact ⟨[Event.reg_read 0x01A8 2, Event.reg_read 0x0000 2, Event.reg_read 0x00AF 2],
      by simp [he1, hpf, he2, hpa, he3], by simp, by simp [Event.is_reg_read],
      by simp [Event.is_reg_read], by simp [he1, hpf, he2, hpa]⟩
  by_cases hbl : blacklist_hit (u16 v3) bms_revive_blacklist = true
  · exact ⟨[Event.reg_read 0x01A8 2, Event.reg_read 0x0000 2, Event.reg_read 0x00AF 2],
      by simp [he1, hpf, he2, hpa, he3, hbl], by simp, by simp [Event.is_reg_read],
      by simp [Event.is_reg_read], by simp [he1, hpf, he2, hpa]⟩
  · exact ⟨[Event.reg_read 0x01A8 2, Event.reg_read 0x0000 2, Event.reg_read 0x00AF 2,
        Event.full_reset],
      by simp [he1, hpf, he2, hpa, he3, hbl], by simp, by simp [Event.is_reg_read],
      by simp [Event.is_reg_read], by simp [he1, hpf, he2, hpa]⟩

/-- Witness for C15: the run that goes furthest (three reads, then the reset). -/
theorem bat_okay_reads_only_witness :
    ∃ t, (bms_bat_okay (fixed_bus 0x0000 0x8000 0x0010) ⟨(), []⟩).2.trace = [] ++ t
      ∧ (∀ ev ∈ t, (∀ reg value len, ev ≠ Event.reg_write reg value len)
          ∧ (∀ msecs, ev ≠ Event.delay msecs))
      ∧ t.filter Event.is_reg_read
          <+: [Event.reg_read 0x01A8 2, Event.reg_read 0x0000 2, Event.reg_read 0x00AF 2]
      ∧ (t.filter Event.is_reg_read).length ≤ 3
      ∧ (Event.reg_read 0x00AF 2 ∈ t →
          BMS_OK = BMS_OK ∧ u16 0x0000 &&& 0x8000 = 0 ∧ BMS_OK = BMS_OK
            ∧ u16 0x8000 &&& 0x8000 ≠ 0
            ∧ t.take 2 = [Event.reg_read 0x01A8 2, Event.reg_read 0x0000 2]) :=
  bat_okay_reads_only (fixed_bus 0x0000 0x8000 0x0010) ⟨(), []⟩ BMS_OK BMS_OK BMS_OK
    0x0000 0x8000 0x0010 () () () rfl rfl rfl

/-- C16: a getter whose read fails leaves its output location as it was, and
`bms_get_stats` therefore leaves the fields of the failing read and of the reads
after it at their prior values; only the fields of the reads before it are
rewritten, each with the value its getter stored. -/
theorem failed_read_keeps_output (c : Collab σ) (x : ℚ) (stats : bms_stats_t) (w : World σ)
    (e1 e2 e3 e4 : bms_error_t) (d1 d2 d3 d4 : Nat) (s1 s2 s3 s4 : σ)
    (h1 : c.bms_reg_read BMS_REG_VBAT 0 2 w.dev = (e1, d1, s1))
    (h2 : c.bms_reg_read BMS_REG_CBAT 0 2 s1 = (e2, d2, s2))
    (h3 : c.bms_reg_read BMS_REG_REPCAP 0 2 s2 = (e3, d3, s3))
    (h4 : c.bms_reg_read BMS_REG_FULLCAP 0 2 s3 = (e4, d4, s4)) :
    ((c.bms_reg_read BMS_REG_VBAT 0 2 w.dev).1 ≠ BMS_OK → (bms_get_voltage c x w).2.1 = x)
      ∧ ((c.bms_reg_read BMS_REG_CBAT 0 2 w.dev).1 ≠ BMS_OK →
          (bms_get_current c x w).2.1 = x)
      ∧ ((c.bms_reg_read BMS_REG_REPCAP 0 2 w.dev).1 ≠ BMS_OK → (bms_get_soc c x w).2.1 = x)
      ∧ ((c.bms_reg_read BMS_REG_FULLCAP 0 2 w.dev).1 ≠ BMS_OK →
          (bms_get_full_capacity c x w).2.1 = x)
      ∧ (bms_get_stats c stats w).2.1 =
          if e1 ≠ BMS_OK then stats
          else if e2 ≠ BMS_OK then
            ⟨(bms_get_voltage c stats.volts w).2.1, stats.amps, stats.soc, stats.cap⟩
          else if e3 ≠ BMS_OK then
            ⟨(bms_get_voltage c stats.volts w).2.1,
              (bms_get_current c stats.amps ⟨s1, w.trace ++ [Event.reg_read 0x00DA 2]⟩).2.1,
              stats.soc, stats.cap⟩
          else if e4 ≠ BMS_OK then
            ⟨(bms_get_voltage c stats.volts w).2.1,
              (bms_get_current c stats.amps ⟨s1, w.trace ++ [Event.reg_read 0x00DA 2]⟩).2.1,
              (bms_get_soc c stats.soc ⟨s2, w.trace ++ [Event.reg_read 0x00DA 2,
                Event.reg_read 0x001C 2]⟩).2.1,
              stats.cap⟩
          else
            ⟨(bms_get_voltage c stats.volts w).2.1,
              (bms_get_current c stats.amps ⟨s1, w.trace ++ [Event.reg_read 0x00DA 2]⟩).2.1,
              (bms_get_soc c stats.soc ⟨s2, w.trace ++ [Event.reg_read 0x00DA 2,
                Event.reg_read 0x001C 2]⟩).2.1,
              (bms_get_full_capacity c stats.cap ⟨s3, w.trace ++ [Event.reg_read 0x00DA 2,
                Event.reg_read 0x001C 2, Event.reg_read 0x0005 2]⟩).2.1⟩ := by
  refine ⟨?_, ?_, ?_, ?_, ?_⟩
  · intro hne
    rw [bms_get_voltage_eq c x w _ _ _ rfl, if_neg hne]
  · intro hne
    rw [bms_get_current_eq c x w _ _ _ rfl, if_neg hne]
  · intro hne
    rw [bms_get_soc_eq c x w _ _ _ rfl, if_neg hne]
  · intro hne
    rw [bms_get_full_capacity_eq c x w _ _ _ rfl, if_neg hne]
  · have g1 := bms_get_voltage_eq c stats.volts w e1 d1 s1 h1
    have g2 := fun x t => bms_get_current_eq c x ⟨s1, t⟩ e2 d2 s2 h2
    have g3 := fun x t => bms_get_soc_eq c x ⟨s2, t⟩ e3 d3 s3 h3
    have g4 := fun x t => bms_get_full_capacity_eq c x ⟨s3, t⟩ e4 d4 s4 h4
    by_cases he1 : e1 = BMS_OK
    · by_cases he2 : e2 = BMS_OK
      · by_cases he3 : e3 = BMS_OK
        · by_cases he4 : e4 = BMS_OK
          · simp [bms_get_stats, g1, g2, g3, g4, he1, he2, he3, he4, u8_val_eq_ok_iff]
          · simp [bms_get_stats, g1, g2, g3, g4, he1, he2, he3, he4, u8_val_eq_ok_iff]
        · simp [bms_get_stats, g1, g2, g3, he1, he2, he3, u8_val_eq_ok_iff]
      · simp [bms_get_stats, g1, g2, he1, he2, u8_val_eq_ok_iff]
    · simp [bms_get_stats, g1, he1, u8_val_eq_ok_iff]

/-- Witness for C16: the third read (state of charge) fails; `soc` and `cap` keep
their prior values 3 and 4, `volts` and `amps` hold what the two getters stored.
On the `__weak` default transport `bms_get_soc` leaves the prior value 42 in
place. -/
theorem failed_read_keeps_output_witness :
    (bms_get_stats (failing_bus 2 BMS_I2C_MEM_READ_ERROR 7 7 7) ⟨1, 2, 3, 4⟩ ⟨0, []⟩).2.1
        = ⟨(bms_get_voltage (failing_bus 2 BMS_I2C_MEM_READ_ERROR 7 7 7) 1 ⟨0, []⟩).2.1,
            (bms_get_current (failing_bus 2 BMS_I2C_MEM_READ_ERROR 7 7 7) 2
              ⟨1, [Event.reg_read 0x00DA 2]⟩).2.1, 3, 4⟩
      ∧ (bms_get_soc weak_default 42 ⟨(), []⟩).2.1 = 42 :=
  ⟨(failed_read_keeps_output (failing_bus 2 BMS_I2C_MEM_READ_ERROR 7 7 7) 0 ⟨1, 2, 3, 4⟩
      ⟨0, []⟩ BMS_OK BMS_OK BMS_I2C_MEM_READ_ERROR BMS_OK 7 7 7 7 1 2 3 4
      rfl rfl rfl rfl).2.2.2.2,
    (failed_read_keeps_output weak_default 42 ⟨0, 0, 0, 0⟩ ⟨(), []⟩
      BMS_I2C_MEM_READ_ERROR BMS_I2C_MEM_READ_ERROR BMS_I2C_MEM_READ_ERROR
      BMS_I2C_MEM_READ_ERROR 0 0 0 0 () () () () rfl rfl rfl rfl).2.2.1 (by decide)⟩

end Bms
